import Mathlib

/-!
Verification of the fissio pipeline engine, WebSocket session protocol and
trace store against their natural-language specification.

The Rust sources are shallowly embedded: pure functions become Lean
functions, the engine's mutable state (`context : HashMap<String,String>`,
`executed : HashSet<String>`, the step counter) becomes an explicit
`EngineState` threaded through the traversal, and fallible operations
return `Except`.  LLM provider calls are abstracted by a deterministic
oracle (`Chat`): the engine only ever consumes the returned content
string, and the parallel branch joins all futures before mutating any
state from the driving task, so the set of dispatched nodes and all
stored values are independent of the completion interleaving; only the
logging step numbers (which the source declares semantically
meaningless) depend on it.  Recursion through the edge graph is bounded
by an explicit fuel parameter; running out of fuel is reported as a
distinguished `RunError.outOfFuel` (the Rust recursion is unbounded).
-/

namespace Fissio

-- ═════════════════════════════════════════════════════════════════════
-- Small HashMap / HashSet model (string-keyed association lists)
-- ═════════════════════════════════════════════════════════════════════

instance {ε α : Type} [DecidableEq ε] [DecidableEq α] :
    DecidableEq (Except ε α) := fun x y =>
  match x, y with
  | .ok a, .ok b =>
    if h : a = b then isTrue (by rw [h])
    else isFalse (by intro hh; injection hh; contradiction)
  | .error a, .error b =>
    if h : a = b then isTrue (by rw [h])
    else isFalse (by intro hh; injection hh; contradiction)
  | .ok _, .error _ => isFalse (by intro h; cases h)
  | .error _, .ok _ => isFalse (by intro h; cases h)

/-- Model of `HashMap<String, α>::get`: the most recent insertion wins. -/
def hmGet {α : Type} (m : List (String × α)) (k : String) : Option α :=
  (m.find? (fun p => p.1 == k)).map (·.2)

/-- Model of `HashMap<String, α>::insert`: the new binding shadows older ones. -/
def hmInsert {α : Type} (m : List (String × α)) (k : String) (v : α) :
    List (String × α) :=
  (k, v) :: m

/-- Model of collecting an iterator of pairs into a `HashMap` (later pairs
with the same key overwrite earlier ones). -/
def hmOfList {α : Type} (l : List (String × α)) : List (String × α) :=
  l.foldl (fun acc p => hmInsert acc p.1 p.2) []

/-- Model of `HashSet<String>::insert`. -/
def execInsert (s : List String) (id : String) : List String :=
  if s.contains id then s else id :: s

-- ═════════════════════════════════════════════════════════════════════
-- agent-config: node / edge / pipeline configuration
-- ═════════════════════════════════════════════════════════════════════

/-- Rust `NodeType` from agent-config/src/lib.rs. -/
inductive NodeType where
  | Llm | Gate | Router | Coordinator | Aggregator
  | Orchestrator | Worker | Synthesizer | Evaluator
deriving DecidableEq, Repr

/-- Rust `EdgeType` from agent-config/src/lib.rs (`Direct` is the serde default). -/
inductive EdgeType where
  | Direct | Dynamic | Conditional | Parallel
deriving DecidableEq, Repr

/-- Rust `EdgeEndpoint` from agent-config/src/lib.rs: a single node id or an
ordered list of node ids. -/
inductive EdgeEndpoint where
  | Single (s : String)
  | Multiple (v : List String)
deriving DecidableEq, Repr

/-- Rust `EdgeEndpoint::as_vec`. -/
def EdgeEndpoint.asVec : EdgeEndpoint → List String
  | .Single s => [s]
  | .Multiple v => v

/-- Rust `NodeConfig` from agent-config/src/lib.rs.  The opaque serde `config`
blob is carried by no code path the claims touch and is omitted. -/
structure NodeConfig where
  id : String
  node_type : NodeType
  model : Option String
  prompt : Option String
deriving DecidableEq, Repr

/-- Rust `EdgeConfig` from agent-config/src/lib.rs (`from` is a Lean keyword,
hence the field names `from_` and `to_`). -/
structure EdgeConfig where
  from_ : EdgeEndpoint
  to_ : EdgeEndpoint
  edge_type : EdgeType
deriving DecidableEq, Repr

/-- Rust `PipelineConfig` from agent-config/src/lib.rs. -/
structure PipelineConfig where
  id : String
  name : String
  description : String
  nodes : List NodeConfig
  edges : List EdgeConfig
deriving DecidableEq, Repr

/-- Rust `ModelConfig` from agent-core/src/lib.rs. -/
structure ModelConfig where
  id : String
  name : String
  model : String
  api_base : Option String
deriving DecidableEq, Repr

/-- Rust `AgentError` from agent-core/src/lib.rs. -/
inductive AgentError where
  | LlmError (s : String)
  | ParseError (s : String)
  | WorkerFailed (s : String)
  | ExternalApi (s : String)
  | MaxRetriesExceeded
  | UnknownWorker (s : String)
  | WebSocket (s : String)
deriving DecidableEq, Repr

/-- Modelled from the spec (section 3, PipelineConfig invariants): every
edge endpoint id is a node id of the pipeline or a reserved boundary id,
at least one edge originates from `input`, at least one edge terminates
at `output`, and node ids are unique. -/
def PipelineWF (c : PipelineConfig) : Prop :=
  (∀ e ∈ c.edges, ∀ id ∈ e.from_.asVec ++ e.to_.asVec,
      id = "input" ∨ id = "output" ∨ ∃ n ∈ c.nodes, n.id = id) ∧
  (∃ e ∈ c.edges, "input" ∈ e.from_.asVec) ∧
  (∃ e ∈ c.edges, "output" ∈ e.to_.asVec) ∧
  (c.nodes.map (·.id)).Nodup

instance (c : PipelineConfig) : Decidable (PipelineWF c) := by
  unfold PipelineWF; infer_instance

-- ═════════════════════════════════════════════════════════════════════
-- agent-engine: model resolver
-- ═════════════════════════════════════════════════════════════════════

/-- Rust `ModelResolver` from agent-engine/src/lib.rs. -/
structure ModelResolver where
  models : List (String × ModelConfig)
  default_model : ModelConfig

/-- Rust `ModelResolver::new`: collect `(m.id, m)` pairs into the map. -/
def ModelResolver.new (models : List ModelConfig) (default : ModelConfig) :
    ModelResolver :=
  { models := hmOfList (models.map (fun m => (m.id, m))),
    default_model := default }

/-- Rust `ModelResolver::resolve`: `model_id.and_then(get).unwrap_or(default)`. -/
def ModelResolver.resolve (r : ModelResolver) (model_id : Option String) :
    ModelConfig :=
  ((model_id.bind (hmGet r.models)).getD r.default_model)

-- ═════════════════════════════════════════════════════════════════════
-- agent-engine: pipeline engine
-- ═════════════════════════════════════════════════════════════════════

/-- Rust `PipelineEngine` from agent-engine/src/lib.rs. -/
structure PipelineEngine where
  config : PipelineConfig
  resolver : ModelResolver
  node_overrides : List (String × String)

/-- Rust `PipelineEngine::new`. -/
def PipelineEngine.new (config : PipelineConfig) (models : List ModelConfig)
    (default_model : ModelConfig) (node_overrides : List (String × String)) :
    PipelineEngine :=
  { config, resolver := ModelResolver.new models default_model, node_overrides }

/-- Rust `PipelineEngine::get_node_model`:
`node_overrides.get(&node.id).or(node.model.as_ref())` resolved. -/
def PipelineEngine.get_node_model (E : PipelineEngine) (node : NodeConfig) :
    ModelConfig :=
  E.resolver.resolve ((hmGet E.node_overrides node.id).orElse (fun _ => node.model))

/-- Rust `PipelineEngine::get_node`. -/
def PipelineEngine.get_node (E : PipelineEngine) (id : String) :
    Option NodeConfig :=
  E.config.nodes.find? (fun n => n.id == id)

/-- Rust `PipelineEngine::get_outgoing_edges`. -/
def PipelineEngine.get_outgoing_edges (E : PipelineEngine) (node_id : String) :
    List EdgeConfig :=
  E.config.edges.filter (fun e => e.from_.asVec.contains node_id)

/-- The per-run execution context (`Arc<RwLock<HashMap<String,String>>>`). -/
abbrev Ctx := List (String × String)

/-- The engine's per-run mutable state, threaded explicitly.  `log` is
ghost instrumentation: it records, in order, the node ids passed to
`execute_node_static`; it affects nothing else. -/
structure EngineState where
  context : Ctx
  executed : List String
  log : List String
  step : Nat
deriving DecidableEq, Repr

/-- The chat oracle abstracting `LlmClient::chat` (a deterministic function
of the node's resolved model, system prompt and input). -/
abbrev Chat := ModelConfig → String → String → Except AgentError String

/-- Errors of a modelled run: a propagated `AgentError`, or exhaustion of
the explicit recursion fuel (an artifact of the embedding; the Rust
recursion is unbounded). -/
inductive RunError where
  | agent (e : AgentError)
  | outOfFuel
deriving DecidableEq, Repr

/-- Result of one traversal step: the state after all mutations performed
so far, and the propagated outcome. -/
abbrev StepResult := EngineState × Except RunError Unit

abbrev Recurse := EdgeConfig → EngineState → StepResult

/-- The literal separator joining aggregated upstream outputs. -/
def inputSep : String := "\n\n---\n\n"

/-- Context values of an edge's `from` endpoints present in the context
(`from_nodes.iter().filter_map(|id| ctx.get(id))`). -/
def edgeInputs (ctx : Ctx) (e : EdgeConfig) : List String :=
  e.from_.asVec.filterMap (hmGet ctx)

/-- Rust `PipelineEngine::get_input_for_node_async`, as a recursion over the
edge list: the first edge whose `to` contains the node and whose gathered
upstream values are non-empty wins; otherwise fall back to
`context["input"]`. -/
def get_input_for_node (edges : List EdgeConfig) (node_id : String) (ctx : Ctx) :
    String :=
  match edges with
  | [] => (hmGet ctx "input").getD ""
  | e :: rest =>
    if e.to_.asVec.contains node_id then
      let inputs := edgeInputs ctx e
      if inputs.isEmpty then get_input_for_node rest node_id ctx
      else String.intercalate inputSep inputs
    else get_input_for_node rest node_id ctx

/-- Rust `PipelineEngine::execute_node_static` (logging and timing dropped; the
LLM call is the oracle).  `node_id` and `step` are kept for signature
fidelity; the source uses them only for logging. -/
def execute_node_static (chat : Chat) (node_id : String) (node_type : NodeType)
    (model : ModelConfig) (prompt : Option String) (input : String)
    (step : Nat) : Except AgentError String :=
  match node_type with
  | .Llm => chat model (prompt.getD "") input
  | .Worker => chat model (prompt.getD "") input
  | .Gate => .ok input
  | .Router => .ok input
  | .Coordinator => .ok input
  | .Orchestrator => .ok input
  | .Aggregator => .ok input
  | .Synthesizer => .ok input
  | .Evaluator => .ok input

/-- Data gathered sequentially for a parallel batch
(`node_data` in `process_edge`): id, type, resolved model, prompt, and the
input snapshotted from the current context. -/
def collectNodeData (E : PipelineEngine) (targets : List String)
    (st : EngineState) :
    List (String × NodeType × ModelConfig × Option String × String) :=
  (targets.filter (fun id => !st.executed.contains id)).filterMap (fun id =>
    (E.get_node id).map (fun node =>
      (id, node.node_type, E.get_node_model node, node.prompt,
        get_input_for_node E.config.edges id st.context)))

/-- The joined parallel futures (`join_all`): every future runs
`execute_node_static` once; results come back in input order.  Step
numbers are assigned sequentially here — the interleaving affects only
them, and the source declares them semantically meaningless. -/
def runBatch (chat : Chat) :
    List (String × NodeType × ModelConfig × Option String × String) → Nat →
    List (String × Except AgentError String)
  | [], _ => []
  | (id, ty, model, prompt, input) :: rest, step0 =>
    (id, execute_node_static chat id ty model prompt input (step0 + 1)) ::
      runBatch chat rest (step0 + 1)

/-- The store loop after the parallel join: insert each `Ok` result into
context and `executed`; return the first `Err` (later results are then
not stored, matching the `for … return Err(e)` in the source). -/
def storeResults : List (String × Except AgentError String) → EngineState →
    StepResult
  | [], st => (st, .ok ())
  | (id, .ok content) :: rest, st =>
    storeResults rest
      { st with context := hmInsert st.context id content,
                executed := execInsert st.executed id }
  | (_, .error e) :: _, st => (st, .error (.agent e))

/-- Short-circuiting loop over a list of edges (`for edge in … { recurse?! }`). -/
def edgeList (recurse : Recurse) : List EdgeConfig → EngineState → StepResult
  | [], st => (st, .ok ())
  | e :: rest, st =>
    match recurse e st with
    | (st', .ok _) => edgeList recurse rest st'
    | (st', .error r) => (st', .error r)

/-- The post-join loop of the parallel branch: for each outgoing edge of
each parallel target, recurse unless some downstream target has already
executed (the idempotence guard). -/
def followEdges (recurse : Recurse) :
    List EdgeConfig → EngineState → StepResult
  | [], st => (st, .ok ())
  | e :: rest, st =>
    if e.to_.asVec.any (fun t => st.executed.contains t) then
      followEdges recurse rest st
    else
      match recurse e st with
      | (st', .ok _) => followEdges recurse rest st'
      | (st', .error r) => (st', .error r)

/-- Outer loop of the parallel follow-up phase, over the parallel targets. -/
def parFollowups (E : PipelineEngine) (recurse : Recurse) :
    List String → EngineState → StepResult
  | [], st => (st, .ok ())
  | id :: rest, st =>
    match followEdges recurse (E.get_outgoing_edges id) st with
    | (st', .ok _) => parFollowups E recurse rest st'
    | (st', .error r) => (st', .error r)

/-- The sequential branch of `process_edge`: for each target not yet
executed and not `"output"`, assemble input, execute, store, mark
executed, then recurse into its outgoing edges. -/
def seqTargets (E : PipelineEngine) (chat : Chat) (recurse : Recurse) :
    List String → EngineState → StepResult
  | [], st => (st, .ok ())
  | id :: rest, st =>
    if st.executed.contains id || id == "output" then
      seqTargets E chat recurse rest st
    else
      match E.get_node id with
      | none => seqTargets E chat recurse rest st
      | some node =>
        let input := get_input_for_node E.config.edges id st.context
        let st1 : EngineState :=
          { st with step := st.step + 1, log := st.log ++ [id] }
        match execute_node_static chat id node.node_type
            (E.get_node_model node) node.prompt input st1.step with
        | .error e => (st1, .error (.agent e))
        | .ok content =>
          let st2 : EngineState :=
            { st1 with context := hmInsert st1.context id content,
                       executed := execInsert st1.executed id }
          match edgeList recurse (E.get_outgoing_edges id) st2 with
          | (st3, .ok _) => seqTargets E chat recurse rest st3
          | (st3, .error r) => (st3, .error r)

/-- Rust `PipelineEngine::process_edge`, with explicit fuel bounding the
recursion depth. -/
def process_edge (E : PipelineEngine) (chat : Chat) :
    Nat → EdgeConfig → EngineState → StepResult
  | 0, _, st => (st, .error .outOfFuel)
  | fuel + 1, edge, st =>
    let target_ids := edge.to_.asVec
    if target_ids = ["output"] then (st, .ok ())
    else
      match edge.edge_type with
      | .Parallel =>
        let data := collectNodeData E target_ids st
        let results := runBatch chat data st.step
        let st1 : EngineState :=
          { st with step := st.step + data.length,
                    log := st.log ++ data.map (·.1) }
        match storeResults results st1 with
        | (st2, .ok _) => parFollowups E (process_edge E chat fuel) target_ids st2
        | (st2, .error r) => (st2, .error r)
      | _ => seqTargets E chat (process_edge E chat fuel) target_ids st

/-- Predicate on an edge terminating at the single boundary id `"output"`
(`matches!(&edge.to, EdgeEndpoint::Single(s) if s == "output")`). -/
def isOutputEdge (e : EdgeConfig) : Bool :=
  match e.to_ with
  | .Single s => s == "output"
  | _ => false

/-- The output-selection loop at the end of `execute_stream`: at the first
edge terminating at `"output"`, return the last present context value
among its `from` endpoints (empty string when none are present); with no
such edge, return the empty string. -/
def selectOutput : List EdgeConfig → Ctx → String
  | [], _ => ""
  | e :: rest, ctx =>
    if isOutputEdge e then ((edgeInputs ctx e).getLast?).getD ""
    else selectOutput rest ctx

/-- The start edges: those whose `from` is the single boundary id `"input"`. -/
def start_edges (E : PipelineEngine) : List EdgeConfig :=
  E.config.edges.filter (fun e =>
    match e.from_ with
    | .Single s => s == "input"
    | _ => false)

/-- The fresh state at the top of `execute_stream`:
`context["input"] = user_input`, empty `executed`, step counter zero. -/
def initState (user_input : String) : EngineState :=
  { context := hmInsert [] "input" user_input, executed := [], log := [],
    step := 0 }

/-- The traversal phase of `execute_stream`: process every start edge in
order, short-circuiting on error. -/
def runTraversal (E : PipelineEngine) (chat : Chat) (fuel : Nat)
    (user_input : String) : StepResult :=
  edgeList (process_edge E chat fuel) (start_edges E) (initState user_input)

/-- Rust `PipelineEngine::execute_stream`.  The source's `history` argument is
never consumed by any node (spec section 9 notes this); the returned
`EngineOutput` is always the `Complete` variant, modelled as the string. -/
def execute_stream (E : PipelineEngine) (chat : Chat) (fuel : Nat)
    (user_input : String) : Except RunError String :=
  match runTraversal E chat fuel user_input with
  | (st, .ok _) => .ok (selectOutput E.config.edges st.context)
  | (_, .error r) => .error r

-- ═════════════════════════════════════════════════════════════════════
-- fissio-monitor: trace types and SQLite-backed store
-- ═════════════════════════════════════════════════════════════════════

/-- Width constant for `u32` wrap-around. -/
def U32M : Nat := 4294967296

/-- Width constant for `u64` wrap-around. -/
def U64M : Nat := 18446744073709551616

/-- Wrapping `u32` addition (release-mode Rust `+=`). -/
def add32 (a b : Nat) : Nat := (a + b) % U32M

/-- Wrapping `u64` addition (release-mode Rust `+=`). -/
def add64 (a b : Nat) : Nat := (a + b) % U64M

/-- Rust `as u64` cast of an `i64` (two's-complement wrap). -/
def intAsU64 (i : Int) : Nat := (i % (U64M : Int)).toNat

/-- Rust `TraceStatus` from fissio-monitor/src/trace.rs. -/
inductive TraceStatus where
  | Success | Error | Running
deriving DecidableEq, Repr

/-- Rust `TraceStatus::as_str`. -/
def TraceStatus.as_str : TraceStatus → String
  | .Success => "success"
  | .Error => "error"
  | .Running => "running"

/-- Rust `TraceStatus::from_str`: the catch-all arm maps every unrecognized
string to `Error`. -/
def TraceStatus.from_str (s : String) : TraceStatus :=
  if s == "success" then .Success
  else if s == "error" then .Error
  else if s == "running" then .Running
  else .Error

/-- Rust `TraceRecord` from fissio-monitor/src/trace.rs.  `timestamp` is `i64`
(ms since epoch); token and tool-call counters are `u32`; elapsed is `u64`. -/
structure TraceRecord where
  trace_id : String
  pipeline_id : String
  pipeline_name : String
  timestamp : Int
  input : String
  output : String
  total_elapsed_ms : Nat
  total_input_tokens : Nat
  total_output_tokens : Nat
  total_tool_calls : Nat
  status : TraceStatus
deriving DecidableEq, Repr

/-- A row of the `traces` table: same columns, with `status` as the stored
TEXT (written through `as_str`, read back through `from_str`). -/
structure TraceRow where
  trace_id : String
  pipeline_id : String
  pipeline_name : String
  timestamp : Int
  input : String
  output : String
  total_elapsed_ms : Nat
  total_input_tokens : Nat
  total_output_tokens : Nat
  total_tool_calls : Nat
  status : String
deriving DecidableEq, Repr

/-- The INSERT parameter binding of `TraceStore::insert_trace`. -/
def rowOfTrace (t : TraceRecord) : TraceRow :=
  { trace_id := t.trace_id, pipeline_id := t.pipeline_id,
    pipeline_name := t.pipeline_name, timestamp := t.timestamp,
    input := t.input, output := t.output,
    total_elapsed_ms := t.total_elapsed_ms,
    total_input_tokens := t.total_input_tokens,
    total_output_tokens := t.total_output_tokens,
    total_tool_calls := t.total_tool_calls, status := t.status.as_str }

/-- The SELECT row mapping shared by `get_trace` and `list_traces`. -/
def traceOfRow (r : TraceRow) : TraceRecord :=
  { trace_id := r.trace_id, pipeline_id := r.pipeline_id,
    pipeline_name := r.pipeline_name, timestamp := r.timestamp,
    input := r.input, output := r.output,
    total_elapsed_ms := r.total_elapsed_ms,
    total_input_tokens := r.total_input_tokens,
    total_output_tokens := r.total_output_tokens,
    total_tool_calls := r.total_tool_calls,
    status := TraceStatus.from_str r.status }

/-- Rust `StoreError` from fissio-monitor/src/store.rs. -/
inductive StoreError where
  | Database (s : String)
  | Lock
  | Serialization (s : String)
deriving DecidableEq, Repr

/-- The `traces` table of the store (spans and tool calls live in sibling
tables not exercised by the claims under verification). -/
structure TraceStore where
  rows : List TraceRow
deriving DecidableEq, Repr

/-- Rust `TraceStore::insert_trace`: a plain INSERT — on a duplicate primary
key SQLite reports a constraint violation.  Mutex poisoning is not
modelled (the model has no panics). -/
def TraceStore.insert_trace (s : TraceStore) (t : TraceRecord) :
    Except StoreError TraceStore :=
  if s.rows.any (fun r => r.trace_id == t.trace_id) then
    .error (.Database "UNIQUE constraint failed: traces.trace_id")
  else .ok ⟨s.rows ++ [rowOfTrace t]⟩

/-- The SET clause of `TraceStore::update_trace` applied to one row: the
six finalization columns (`output`, `total_elapsed_ms`, the three
counters, `status`) take the record's values; `timestamp`, `input` and
the pipeline columns keep their inserted values. -/
def finalizeRow (t : TraceRecord) (r : TraceRow) : TraceRow :=
  { r with output := t.output, total_elapsed_ms := t.total_elapsed_ms,
           total_input_tokens := t.total_input_tokens,
           total_output_tokens := t.total_output_tokens,
           total_tool_calls := t.total_tool_calls,
           status := t.status.as_str }

/-- Rust `TraceStore::update_trace`: UPDATE of the rows matching `trace_id`. -/
def TraceStore.update_trace (s : TraceStore) (t : TraceRecord) : TraceStore :=
  ⟨s.rows.map (fun r =>
    if r.trace_id == t.trace_id then finalizeRow t r else r)⟩

/-- Rust `TraceStore::get_trace`: the row with the given primary key, if any. -/
def TraceStore.get_trace (s : TraceStore) (trace_id : String) :
    Option TraceRecord :=
  (s.rows.find? (fun r => r.trace_id == trace_id)).map traceOfRow

/-- Rust `TraceQuery` from fissio-monitor/src/trace.rs. -/
structure TraceQuery where
  pipeline_id : Option String
  status : Option TraceStatus
  limit : Option Nat
  offset : Option Nat
deriving DecidableEq, Repr

/-- Descending insertion for `ORDER BY timestamp DESC` (SQLite leaves the
relative order of equal timestamps unspecified; the model fixes one). -/
def insertByTimestampDesc (r : TraceRow) : List TraceRow → List TraceRow
  | [] => [r]
  | x :: xs =>
    if r.timestamp > x.timestamp then r :: x :: xs
    else x :: insertByTimestampDesc r xs

/-- Sort for `ORDER BY timestamp DESC`. -/
def sortByTimestampDesc (l : List TraceRow) : List TraceRow :=
  l.foldr insertByTimestampDesc []

/-- Rust `TraceStore::list_traces`: WHERE filters on `pipeline_id` and the
stored `status` text, ORDER BY timestamp DESC, then OFFSET and LIMIT.
(The source emits an OFFSET clause only when requested; the handler under
verification always supplies a LIMIT.) -/
def TraceStore.list_traces (s : TraceStore) (q : TraceQuery) :
    List TraceRecord :=
  let rows := s.rows.filter (fun r =>
    (match q.pipeline_id with
     | some pid => r.pipeline_id == pid
     | none => true) &&
    (match q.status with
     | some st => r.status == st.as_str
     | none => true))
  let rows := sortByTimestampDesc rows
  let rows := match q.offset with
    | some o => rows.drop o
    | none => rows
  let rows := match q.limit with
    | some l => rows.take l
    | none => rows
  rows.map traceOfRow

-- ═════════════════════════════════════════════════════════════════════
-- fissio-monitor: metrics and the tracing collector
-- ═════════════════════════════════════════════════════════════════════

/-- Rust `NodeMetrics` from fissio-monitor/src/lib.rs.  The optional
`estimated_cost_usd : f64` is floating point, never read by the
aggregation, and omitted from the model. -/
structure NodeMetrics where
  node_id : String
  input_tokens : Nat
  output_tokens : Nat
  elapsed_ms : Nat
  tool_call_count : Nat
  iteration_count : Nat
deriving DecidableEq, Repr

/-- Rust `PipelineMetrics` from fissio-monitor/src/lib.rs. -/
structure PipelineMetrics where
  pipeline_id : String
  total_input_tokens : Nat
  total_output_tokens : Nat
  total_elapsed_ms : Nat
  total_tool_calls : Nat
  node_metrics : List NodeMetrics
deriving DecidableEq, Repr

/-- One `+=` pass of the flush accumulation loop. -/
def metricsStep (pm : PipelineMetrics) (m : NodeMetrics) : PipelineMetrics :=
  { pm with
      total_input_tokens := add32 pm.total_input_tokens m.input_tokens,
      total_output_tokens := add32 pm.total_output_tokens m.output_tokens,
      total_elapsed_ms := add64 pm.total_elapsed_ms m.elapsed_ms,
      total_tool_calls := add32 pm.total_tool_calls m.tool_call_count }

/-- The accumulation loop of `TracingCollector::flush` (identical in
`InMemoryCollector::flush`): totals start at zero and are `+=`-folded
over the recorded node metrics. -/
def PipelineMetrics.ofRecorded (pipeline_id : String)
    (ms : List NodeMetrics) : PipelineMetrics :=
  ms.foldl metricsStep
    { pipeline_id, total_input_tokens := 0, total_output_tokens := 0,
      total_elapsed_ms := 0, total_tool_calls := 0, node_metrics := ms }

/-- Rust `TracingCollector` from fissio-monitor/src/collector.rs.  The
`Mutex<Vec<NodeMetrics>>` is the `metrics` list; the span mirror vector
feeds no claim under verification and is omitted.  UUID generation and
`now_ms()` are modelled as explicit parameters of `new`/`finalize`. -/
structure TracingCollector where
  trace_id : String
  pipeline_id : String
  pipeline_name : String
  input : String
  start_time : Int
  metrics : List NodeMetrics
deriving DecidableEq, Repr

/-- Rust `TracingCollector::new`: build the initial `running` trace record,
insert it (a store failure is logged and swallowed, leaving the store
unchanged), and return the collector together with the updated store. -/
def TracingCollector.new (store : TraceStore) (trace_id : String)
    (pipeline_id pipeline_name input : String) (start_time : Int) :
    TracingCollector × TraceStore :=
  ({ trace_id, pipeline_id, pipeline_name, input, start_time, metrics := [] },
    match store.insert_trace
      { trace_id, pipeline_id, pipeline_name, timestamp := start_time, input,
        output := "", total_elapsed_ms := 0, total_input_tokens := 0,
        total_output_tokens := 0, total_tool_calls := 0,
        status := .Running } with
    | .ok s => s
    | .error _ => store)

/-- Rust `MetricsCollector::record` for the tracing collector: push onto the
metrics vector. -/
def TracingCollector.record (c : TracingCollector) (m : NodeMetrics) :
    TracingCollector :=
  { c with metrics := c.metrics ++ [m] }

/-- Rust `MetricsCollector::flush` for the tracing collector. -/
def TracingCollector.flush (c : TracingCollector) : PipelineMetrics :=
  PipelineMetrics.ofRecorded c.pipeline_id c.metrics

/-- Rust `TracingCollector::finalize`: recompute totals via `flush` and UPDATE
the trace row (write failures are logged and swallowed; the model's
update cannot fail). -/
def TracingCollector.finalize (c : TracingCollector) (store : TraceStore)
    (output : String) (status : TraceStatus) (now : Int) : TraceStore :=
  store.update_trace
    { trace_id := c.trace_id, pipeline_id := c.pipeline_id,
      pipeline_name := c.pipeline_name, timestamp := c.start_time,
      input := c.input, output,
      total_elapsed_ms := intAsU64 (now - c.start_time),
      total_input_tokens := c.flush.total_input_tokens,
      total_output_tokens := c.flush.total_output_tokens,
      total_tool_calls := c.flush.total_tool_calls, status }

/-- Rust `TracingCollector::success`. -/
def TracingCollector.success (c : TracingCollector) (store : TraceStore)
    (output : String) (now : Int) : TraceStore :=
  c.finalize store output .Success now

/-- Rust `TracingCollector::error`. -/
def TracingCollector.error (c : TracingCollector) (store : TraceStore)
    (msg : String) (now : Int) : TraceStore :=
  c.finalize store msg .Error now

-- ═════════════════════════════════════════════════════════════════════
-- fissio-server: trace API handler (handlers/traces.rs)
-- ═════════════════════════════════════════════════════════════════════

/-- Rust `ListTracesQuery` from fissio-server/src/handlers/traces.rs: the raw
query-string parameters; `status` arrives as an arbitrary string. -/
structure ListTracesQuery where
  pipeline_id : Option String
  status : Option String
  limit : Option Nat
  offset : Option Nat
deriving DecidableEq, Repr

/-- Rust `AppError` cases produced by the trace handlers. -/
inductive AppError where
  | Internal (s : String)
  | NotFound (s : String)
deriving DecidableEq, Repr

/-- The `TraceQuery` built by the `list` handler:
`status.map(TraceStatus::from_str)`, `limit.or(Some(50))`. -/
def queryOfParams (params : ListTracesQuery) : TraceQuery :=
  { pipeline_id := params.pipeline_id,
    status := params.status.map TraceStatus.from_str,
    limit := (params.limit).orElse (fun _ => some 50),
    offset := params.offset }

/-- Handler `GET /api/traces` (`handlers::traces::list`): build the query and
delegate to the store.  The modelled store cannot fail, so the handler
answers `.ok`; in the source only an internal store error maps to 500 —
no query-string value is ever rejected. -/
def tracesListHandler (store : TraceStore) (params : ListTracesQuery) :
    Except AppError (List TraceRecord) :=
  .ok (store.list_traces (queryOfParams params))

-- ═════════════════════════════════════════════════════════════════════
-- agent-server: DTOs (dto.rs)
-- ═════════════════════════════════════════════════════════════════════

/-- Rust `MessageRole` from agent-core/src/lib.rs. -/
inductive MessageRole where
  | user | assistant
deriving DecidableEq, Repr

/-- Rust `Message` from agent-core/src/lib.rs. -/
structure Message where
  role : MessageRole
  content : String
deriving DecidableEq, Repr

/-- A `serde_json::Value` as far as the endpoint conversion inspects one:
a string, an array (whose elements are observed only through
`Value::as_str`, hence `some s` for a string element and `none` for any
other element), or anything else. -/
inductive JValue where
  | str (s : String)
  | arr (l : List (Option String))
  | other
deriving DecidableEq, Repr

/-- Rust `NodeInfo` from agent-server/src/dto.rs. -/
structure NodeInfo where
  id : String
  node_type : String
  model : Option String
  prompt : Option String
deriving DecidableEq, Repr

/-- Rust `EdgeInfo` from agent-server/src/dto.rs. -/
structure EdgeInfo where
  from_ : JValue
  to_ : JValue
  edge_type : Option String
deriving DecidableEq, Repr

/-- Rust `PipelineInfo` from agent-server/src/dto.rs. -/
structure PipelineInfo where
  id : String
  name : String
  description : String
  nodes : List NodeInfo
  edges : List EdgeInfo
deriving DecidableEq, Repr

/-- Rust `RuntimeNodeConfig` from agent-server/src/dto.rs. -/
structure RuntimeNodeConfig where
  id : String
  node_type : String
  model : Option String
  prompt : Option String
deriving DecidableEq, Repr

/-- Rust `RuntimeEdgeConfig` from agent-server/src/dto.rs. -/
structure RuntimeEdgeConfig where
  from_ : JValue
  to_ : JValue
  edge_type : Option String
deriving DecidableEq, Repr

/-- Rust `RuntimePipelineConfig` from agent-server/src/dto.rs. -/
structure RuntimePipelineConfig where
  nodes : List RuntimeNodeConfig
  edges : List RuntimeEdgeConfig
deriving DecidableEq, Repr

/-- Rust `WsPayload` from agent-server/src/dto.rs (`init` and `verbose` default
to `false`, `node_models` and `history` to empty). -/
structure WsPayload where
  uuid : Option String
  message : Option String
  model_id : Option String
  pipeline_id : Option String
  node_models : List (String × String)
  init : Bool
  verbose : Bool
  wake_model_id : Option String
  unload_model_id : Option String
  history : List Message
  pipeline_config : Option RuntimePipelineConfig
deriving DecidableEq, Repr

/-- Rust `InitResponse` from agent-server/src/dto.rs lines 127–131: the reply
struct sent once after a successful init frame. -/
structure InitResponse where
  models : List ModelConfig
  templates : List PipelineInfo
  configs : List PipelineInfo
deriving DecidableEq, Repr

/-- The JSON keys `derive(Serialize)` emits for `InitResponse`, in
declaration order — the struct carries no serde rename attributes, so the
keys are exactly the declared field names. -/
def InitResponse.serdeFields : List String := ["models", "templates", "configs"]

/-- Rust `WsMetadata` from agent-server/src/dto.rs.  The `tokens_per_sec :
Option<f64>` field is floating point, is carried opaquely (never branched
on), and is omitted from the model. -/
structure WsMetadata where
  input_tokens : Nat
  output_tokens : Nat
  elapsed_ms : Nat
  load_duration_ms : Option Nat
  prompt_eval_ms : Option Nat
  eval_ms : Option Nat
deriving DecidableEq, Repr

/-- The outbound frames of the session, i.e. the untagged `WsResponse`
union plus the `InitResponse` frame sent by the init loop.  An `End`
frame always carries metadata on the paths under verification
(`end_with_metadata`). -/
inductive OutFrame where
  | stream (on_chat_model_stream : String)
  | endFrame (metadata : WsMetadata)
  | modelStatus (model_status : String)
  | initResp (r : InitResponse)
deriving DecidableEq, Repr

-- ═════════════════════════════════════════════════════════════════════
-- agent-server: ws.rs session model
-- ═════════════════════════════════════════════════════════════════════

/-- Rust `StreamChunk` from agent-network: a content chunk or a usage report. -/
inductive StreamChunk where
  | Content (s : String)
  | Usage (input_tokens output_tokens : Nat)
deriving DecidableEq, Repr

/-- One element of an `LlmStream`: a chunk, or a mid-stream error. -/
abbrev ChunkItem := Except AgentError StreamChunk

/-- Rust `OllamaMetrics` as consumed by ws.rs, with the derived getters
(`load_duration_ms()`, …) modelled as fields; the floating point
`tokens_per_sec()` is omitted (see `WsMetadata`). -/
structure OllamaMetrics where
  prompt_eval_count : Nat
  eval_count : Nat
  load_duration_ms : Nat
  prompt_eval_ms : Nat
  eval_ms : Nat
deriving DecidableEq, Repr

/-- Rust `StreamResult` from agent-server/src/ws.rs. -/
structure StreamResult where
  input_tokens : Nat
  output_tokens : Nat
  ollama_metrics : Option OllamaMetrics
deriving DecidableEq, Repr

/-- The fixed apologetic sentence of `send_error` (the source file's bytes
decode to this mojibai sequence: `Sorry` followed by U+00E2 U+20AC U+201D). -/
def errorMsg : String :=
  "Sorryâ€”there was an error generating the response."

/-- The loop body of `consume_stream`: emit a `stream` frame per content
chunk, remember the latest usage report, and stop at the first mid-stream
error (which is logged, not surfaced).  Send failures are not modelled:
the connection is assumed to accept every frame. -/
def consumeGo : List ChunkItem → String → Nat → Nat →
    List OutFrame × String × Nat × Nat
  | [], acc, i, o => ([], acc, i, o)
  | .ok (.Content c) :: rest, acc, i, o =>
    let r := consumeGo rest (acc ++ c) i o
    (.stream c :: r.1, r.2)
  | .ok (.Usage i' o') :: rest, acc, _, _ => consumeGo rest acc i' o'
  | .error _ :: _, acc, i, o => ([], acc, i, o)

/-- Rust `consume_stream` from agent-server/src/ws.rs: frames sent, accumulated
content, and the final token counts. -/
def consume_stream (chunks : List ChunkItem) :
    List OutFrame × String × Nat × Nat :=
  consumeGo chunks "" 0 0

/-- Rust `process_ollama`: on a setup failure, `send_error`; otherwise consume
the stream and report the native metrics. -/
def process_ollama
    (outcome : Except AgentError (List ChunkItem × OllamaMetrics)) :
    List OutFrame × StreamResult :=
  match outcome with
  | .ok (chunks, m) =>
    let r := consume_stream chunks
    (r.1, ⟨r.2.2.1, r.2.2.2, some m⟩)
  | .error _ => ([.stream errorMsg], ⟨0, 0, none⟩)

/-- Rust `process_direct_chat`: on a setup failure, `send_error`; otherwise
consume the stream. -/
def process_direct_chat (outcome : Except AgentError (List ChunkItem)) :
    List OutFrame × StreamResult :=
  match outcome with
  | .ok chunks =>
    let r := consume_stream chunks
    (r.1, ⟨r.2.2.1, r.2.2.2, none⟩)
  | .error _ => ([.stream errorMsg], ⟨0, 0, none⟩)

/-- Rust `process_engine`: run the engine; `execute_stream` only ever returns
the `Complete` variant, sent as a single `stream` frame (the `Stream` arm
of the source is dead code); on error, `send_error`. -/
def process_engine (E : PipelineEngine) (chat : Chat) (fuel : Nat)
    (message : String) : List OutFrame × StreamResult :=
  match execute_stream E chat fuel message with
  | .ok response => ([.stream response], ⟨0, 0, none⟩)
  | .error _ => ([.stream errorMsg], ⟨0, 0, none⟩)

/-- The node-type string mapping of `runtime_to_pipeline_config`
(unknown strings fall back to `Llm`). -/
def nodeTypeOfString (s : String) : NodeType :=
  if s == "llm" then .Llm
  else if s == "gate" then .Gate
  else if s == "router" then .Router
  else if s == "coordinator" then .Coordinator
  else if s == "aggregator" then .Aggregator
  else if s == "orchestrator" then .Orchestrator
  else if s == "worker" then .Worker
  else if s == "synthesizer" then .Synthesizer
  else if s == "evaluator" then .Evaluator
  else .Llm

/-- The edge-type string mapping of `runtime_to_pipeline_config`
(absent or unknown strings fall back to `Direct`). -/
def edgeTypeOfString : Option String → EdgeType
  | some s =>
    if s == "parallel" then .Parallel
    else if s == "dynamic" then .Dynamic
    else if s == "conditional" then .Conditional
    else .Direct
  | none => .Direct

/-- Rust `json_to_endpoint` from agent-server/src/ws.rs. -/
def json_to_endpoint : JValue → EdgeEndpoint
  | .str s => .Single s
  | .arr l => .Multiple (l.filterMap id)
  | .other => .Single ""

/-- Rust `runtime_to_pipeline_config` from agent-server/src/ws.rs. -/
def runtime_to_pipeline_config (rc : RuntimePipelineConfig) : PipelineConfig :=
  { id := "runtime", name := "Runtime Config", description := "",
    nodes := rc.nodes.map (fun n =>
      ⟨n.id, nodeTypeOfString n.node_type, n.model, n.prompt⟩),
    edges := rc.edges.map (fun e =>
      ⟨json_to_endpoint e.from_, json_to_endpoint e.to_,
        edgeTypeOfString e.edge_type⟩) }

/-- The server state as consumed by `handle_socket`: the model list, the
preset registry, and the pipeline lists serialized into the init reply.
(The snapshotted ws.rs names the latter `pipeline_infos` while dto.rs
declares the reply's shape as `templates`/`configs`; the model follows
the declared DTO, which is the wire format.)  `get_model` `.expect`s at
least one configured model. -/
structure ServerStateM where
  models : List ModelConfig
  presets : List (String × PipelineConfig)
  templates : List PipelineInfo
  configs : List PipelineInfo
deriving DecidableEq, Repr

/-- Rust `ServerState::get_model`: find by id, else the first configured model;
`none` models the source's panic on an empty model list. -/
def ServerStateM.get_model (s : ServerStateM) (model_id : String) :
    Option ModelConfig :=
  (s.models.find? (fun m => m.id == model_id)).orElse (fun _ => s.models.head?)

/-- An inbound WebSocket event: a text frame (with `none` for a JSON parse
failure, which is logged and skipped) or any non-text frame (skipped). -/
inductive Inbound where
  | text (p : Option WsPayload)
  | other
deriving DecidableEq, Repr

/-- Whether an inbound event is a parsed payload with `init == true`. -/
def isInitFrame : Inbound → Bool
  | .text (some p) => p.init
  | _ => false

/-- The init reply constructed by `handle_socket` from the server state. -/
def mkInitResponse (s : ServerStateM) : InitResponse :=
  ⟨s.models, s.templates, s.configs⟩

/-- The `pending_init` loop of `handle_socket`: read frames until the
first parsed payload with `init == true`; reply with exactly one
`InitResponse` frame and hand the remaining frames to the active state
together with the session uuid (defaulted to `"anonymous"`); if the
connection ends first, no frame is ever sent. -/
def pendingInit (s : ServerStateM) :
    List Inbound → List OutFrame × Option (String × List Inbound)
  | [] => ([], none)
  | .other :: rest => pendingInit s rest
  | .text none :: rest => pendingInit s rest
  | .text (some p) :: rest =>
    if p.init then
      ([.initResp (mkInitResponse s)], some (p.uuid.getD "anonymous", rest))
    else pendingInit s rest

/-- The four-way path dispatch of the message branch, after the model is
resolved: verbose-Ollama, inline runtime config, preset, or direct chat
(checked in this order). -/
def dispatchMessage (state : ServerStateM) (payload : WsPayload)
    (message : String)
    (ollamaOut : Except AgentError (List ChunkItem × OllamaMetrics))
    (directOut : Except AgentError (List ChunkItem))
    (chat : Chat) (fuel : Nat) (model : ModelConfig) :
    List OutFrame × StreamResult :=
  if payload.verbose && model.api_base.isSome then process_ollama ollamaOut
  else
    match payload.pipeline_config with
    | some rc =>
      process_engine
        (PipelineEngine.new (runtime_to_pipeline_config rc) state.models
          model payload.node_models) chat fuel message
    | none =>
      match payload.pipeline_id.bind (fun id => hmGet state.presets id) with
      | some cfg =>
        process_engine
          (PipelineEngine.new cfg state.models model payload.node_models)
          chat fuel message
      | none => process_direct_chat directOut

/-- The `end` metadata: Ollama metrics when the native path provided them,
else the stream's token counts. -/
def endMetadata (result : StreamResult) (elapsed_ms : Nat) : WsMetadata :=
  match result.ollama_metrics with
  | some m =>
    { input_tokens := m.prompt_eval_count, output_tokens := m.eval_count,
      elapsed_ms, load_duration_ms := some m.load_duration_ms,
      prompt_eval_ms := some m.prompt_eval_ms,
      eval_ms := some m.eval_ms }
  | none =>
    { input_tokens := result.input_tokens,
      output_tokens := result.output_tokens, elapsed_ms,
      load_duration_ms := none, prompt_eval_ms := none, eval_ms := none }

/-- The message branch once the model is resolved: stream the chosen
path's frames, then exactly one end frame carrying the metadata. -/
def handleMessageWithModel (state : ServerStateM) (payload : WsPayload)
    (message : String)
    (ollamaOut : Except AgentError (List ChunkItem × OllamaMetrics))
    (directOut : Except AgentError (List ChunkItem))
    (chat : Chat) (fuel : Nat) (elapsed_ms : Nat) (model : ModelConfig) :
    List OutFrame :=
  (dispatchMessage state payload message ollamaOut directOut chat fuel
      model).1 ++
    [.endFrame (endMetadata
      (dispatchMessage state payload message ollamaOut directOut chat fuel
        model).2 elapsed_ms)]

/-- The message branch of the active loop of `handle_socket`, for one
payload whose `message` field is present (wake/unload branches were not
taken).  The three LLM-facing operations are abstracted by outcome
parameters: `ollamaOut` for `chat_stream_with_metrics`, `directOut` for
`chat_stream`, and the engine's `chat` oracle with its fuel.  `elapsed_ms`
stands for the measured wall-clock duration.  Returns the frames sent;
the unreachable empty-model-list panic is modelled as no frames. -/
def handleMessage (state : ServerStateM) (payload : WsPayload)
    (message : String)
    (ollamaOut : Except AgentError (List ChunkItem × OllamaMetrics))
    (directOut : Except AgentError (List ChunkItem))
    (chat : Chat) (fuel : Nat) (elapsed_ms : Nat) : List OutFrame :=
  match state.get_model (payload.model_id.getD "") with
  | none => []
  | some model =>
    handleMessageWithModel state payload message ollamaOut directOut chat
      fuel elapsed_ms model

-- ═════════════════════════════════════════════════════════════════════
-- Spec-side reference definitions
-- ═════════════════════════════════════════════════════════════════════

/-- Modelled from the claim's words (C2): the input of node N gathers the
context values of the upstream endpoints of EVERY edge whose `to`
contains N, joining them all when any are present.  The source instead
stops at the first such edge with a non-empty gather; the two are
compared below. -/
def specInputAssembly (edges : List EdgeConfig) (node_id : String)
    (ctx : Ctx) : String :=
  let gathered :=
    (edges.filter (fun e => e.to_.asVec.contains node_id)).flatMap
      (fun e => edgeInputs ctx e)
  if gathered.isEmpty then (hmGet ctx "input").getD ""
  else String.intercalate inputSep gathered

-- ═════════════════════════════════════════════════════════════════════
-- Run invariants (statement vocabulary)
-- ═════════════════════════════════════════════════════════════════════

/-- State evolution along the traversal: `executed` only grows, keys
present in the context stay present, and the execution log is extended
on the right. -/
def Mono (st st' : EngineState) : Prop :=
  (∀ id, id ∈ st.executed → id ∈ st'.executed) ∧
  (∀ k, (hmGet st.context k).isSome → (hmGet st'.context k).isSome) ∧
  (∃ l, st'.log = st.log ++ l)

/-- Structural state invariant: `executed` is duplicate-free (it models a
`HashSet`), and every executed node has a stored context value. -/
def StInv (st : EngineState) : Prop :=
  st.executed.Nodup ∧ ∀ id ∈ st.executed, (hmGet st.context id).isSome

/-- Log invariant between traversal steps: no node id was dispatched
twice, and every dispatched node has (already) been marked executed.
After an error the second half may lapse for the aborted batch, but the
run then terminates, so duplicate-freeness of the log is what survives. -/
def LogInv (st : EngineState) : Prop :=
  st.log.Nodup ∧ ∀ id ∈ st.log, id ∈ st.executed

/-- One traversal step preserves monotonicity and the structural
invariant. -/
def GoodStep (st st' : EngineState) : Prop :=
  Mono st st' ∧ (StInv st → StInv st')

instance (st : EngineState) : Decidable (StInv st) := by
  unfold StInv; infer_instance

instance (st : EngineState) : Decidable (LogInv st) := by
  unfold LogInv; infer_instance

-- ═════════════════════════════════════════════════════════════════════
-- Concrete fixtures for witnesses and counterexamples
-- ═════════════════════════════════════════════════════════════════════

/-- A cloud model (the default model of `cloud_models()`). -/
def exModel : ModelConfig :=
  ⟨"openai-gpt4o", "GPT-4o (OpenAI)", "gpt-4o", none⟩

/-- A local model with an `api_base`. -/
def exLocalModel : ModelConfig :=
  ⟨"local-llama", "Llama (local)", "llama3", some "http://host:11434"⟩

/-- A deterministic chat oracle echoing its input. -/
def chatEcho : Chat := fun _ _ input => .ok ("R:" ++ input)

/-- Sequential two-stage pipeline `input → a → b → output`. -/
def exPipeSeq : PipelineConfig :=
  { id := "two_stage", name := "Two Stage", description := "",
    nodes := [⟨"a", .Gate, none, none⟩, ⟨"b", .Llm, none, none⟩],
    edges := [⟨.Single "input", .Single "a", .Direct⟩,
              ⟨.Single "a", .Single "b", .Direct⟩,
              ⟨.Single "b", .Single "output", .Direct⟩] }

def exEngineSeq : PipelineEngine := PipelineEngine.new exPipeSeq [exModel] exModel []

/-- Parallel fan-out/fan-in pipeline
`input → [a,b] (parallel), [a,b] → c, c → output`. -/
def exPipePar : PipelineConfig :=
  { id := "fan", name := "Fan", description := "",
    nodes := [⟨"a", .Gate, none, none⟩, ⟨"b", .Gate, none, none⟩,
              ⟨"c", .Aggregator, none, none⟩],
    edges := [⟨.Single "input", .Multiple ["a", "b"], .Parallel⟩,
              ⟨.Multiple ["a", "b"], .Single "c", .Direct⟩,
              ⟨.Single "c", .Single "output", .Direct⟩] }

def exEnginePar : PipelineEngine := PipelineEngine.new exPipePar [exModel] exModel []

/-- The parallel start edge of `exPipePar`. -/
def exParEdge : EdgeConfig := ⟨.Single "input", .Multiple ["a", "b"], .Parallel⟩

/-- A pipeline whose parallel edge lists the same node twice. -/
def exPipeDup : PipelineConfig :=
  { id := "dup", name := "Dup", description := "",
    nodes := [⟨"a", .Gate, none, none⟩],
    edges := [⟨.Single "input", .Multiple ["a", "a"], .Parallel⟩,
              ⟨.Single "a", .Single "output", .Direct⟩] }

def exEngineDup : PipelineEngine := PipelineEngine.new exPipeDup [exModel] exModel []

/-- A pipeline whose parallel edge targets the boundary id `"output"`
alongside a real node. -/
def exPipeBoundary : PipelineConfig :=
  { id := "bnd", name := "Bnd", description := "",
    nodes := [⟨"b", .Gate, none, none⟩],
    edges := [⟨.Single "input", .Multiple ["output", "b"], .Parallel⟩,
              ⟨.Single "b", .Single "output", .Direct⟩] }

def exEngineBoundary : PipelineEngine :=
  PipelineEngine.new exPipeBoundary [exModel] exModel []

/-- The parallel start edge of `exPipeBoundary`. -/
def exBoundaryEdge : EdgeConfig :=
  ⟨.Single "input", .Multiple ["output", "b"], .Parallel⟩

/-- Two edges feeding the same node `n` from distinct upstreams (C2). -/
def exFanInEdges : List EdgeConfig :=
  [⟨.Single "a", .Single "n", .Direct⟩,
   ⟨.Single "b", .Single "n", .Direct⟩]

/-- A context carrying values for both upstreams of `exFanInEdges`. -/
def exFanInCtx : Ctx := [("a", "A"), ("b", "B"), ("input", "I")]

/-- A trace record used by the store fixtures. -/
def exTrace : TraceRecord :=
  { trace_id := "trace-1", pipeline_id := "pipe-1",
    pipeline_name := "Test Pipeline", timestamp := 1700000000000,
    input := "Hello", output := "World", total_elapsed_ms := 500,
    total_input_tokens := 10, total_output_tokens := 20,
    total_tool_calls := 2, status := .Success }

/-- Two node metrics records (the in-memory collector test's values). -/
def exMetrics : List NodeMetrics :=
  [⟨"node1", 100, 50, 200, 2, 1⟩, ⟨"node2", 150, 75, 300, 0, 1⟩]

/-- A server state with one cloud model and no presets. -/
def exServerState : ServerStateM :=
  { models := [exModel], presets := [], templates := [], configs := [] }

/-- A payload carrying only a message (direct-chat path). -/
def exChatPayload : WsPayload :=
  { uuid := some "u1", message := some "hi", model_id := some "openai-gpt4o",
    pipeline_id := none, node_models := [], init := false, verbose := false,
    wake_model_id := none, unload_model_id := none, history := [],
    pipeline_config := none }

/-- An init frame payload. -/
def exInitPayload : WsPayload :=
  { uuid := some "u1", message := none, model_id := none,
    pipeline_id := none, node_models := [], init := true, verbose := false,
    wake_model_id := none, unload_model_id := none, history := [],
    pipeline_config := none }

/-- A non-init frame payload (ignored during `pending_init`). -/
def exNonInitPayload : WsPayload :=
  { exInitPayload with init := false, uuid := some "u2" }

-- ═════════════════════════════════════════════════════════════════════
-- Helper lemmas: sets, maps, state evolution
-- ═════════════════════════════════════════════════════════════════════

theorem mem_execInsert {s : List String} {id x : String} :
    x ∈ execInsert s id ↔ x = id ∨ x ∈ s := by
  unfold execInsert
  split
  · next h =>
    simp only [List.contains_eq_any_beq, List.any_eq_true, beq_iff_eq] at h
    obtain ⟨y, hy, rfl⟩ := h
    constructor
    · exact Or.inr
    · rintro (rfl | hx)
      · exact hy
      · exact hx
  · simp [List.mem_cons]

theorem self_mem_execInsert (s : List String) (id : String) :
    id ∈ execInsert s id :=
  mem_execInsert.mpr (Or.inl rfl)

theorem contains_iff_mem {s : List String} {x : String} :
    s.contains x = true ↔ x ∈ s := by
  simp [List.contains_eq_any_beq]

theorem nodup_execInsert {s : List String} (id : String) :
    s.Nodup → (execInsert s id).Nodup := by
  intro h
  unfold execInsert
  split
  · exact h
  · next hc =>
    refine List.nodup_cons.mpr ⟨?_, h⟩
    intro hmem
    exact hc (contains_iff_mem.mpr hmem)

theorem hmGet_hmInsert {α : Type} (m : List (String × α)) (k : String)
    (v : α) (k' : String) :
    hmGet (hmInsert m k v) k' = if k == k' then some v else hmGet m k' := by
  simp only [hmGet, hmInsert, List.find?_cons]
  cases h : (k == k') <;> simp [h]

theorem hmGet_hmInsert_self {α : Type} (m : List (String × α)) (k : String)
    (v : α) : hmGet (hmInsert m k v) k = some v := by
  simp [hmGet_hmInsert]

theorem isSome_hmGet_hmInsert {α : Type} {m : List (String × α)}
    {k' : String} (k : String) (v : α) :
    (hmGet m k').isSome → (hmGet (hmInsert m k v) k').isSome := by
  intro h
  rw [hmGet_hmInsert]
  split <;> simp [h]

theorem monoRefl (st : EngineState) : Mono st st :=
  ⟨fun _ h => h, fun _ h => h, ⟨[], by simp⟩⟩

theorem monoTrans {a b c : EngineState} : Mono a b → Mono b c → Mono a c := by
  rintro ⟨e1, c1, l1, hl1⟩ ⟨e2, c2, l2, hl2⟩
  exact ⟨fun i h => e2 i (e1 i h), fun k h => c2 k (c1 k h),
    ⟨l1 ++ l2, by rw [hl2, hl1, List.append_assoc]⟩⟩

theorem goodRefl (st : EngineState) : GoodStep st st :=
  ⟨monoRefl st, fun h => h⟩

theorem goodTrans {a b c : EngineState} :
    GoodStep a b → GoodStep b c → GoodStep a c := by
  rintro ⟨m1, s1⟩ ⟨m2, s2⟩
  exact ⟨monoTrans m1 m2, fun h => s2 (s1 h)⟩

theorem goodStep_logAppend (st : EngineState) (l : List String) (n : Nat) :
    GoodStep st { st with step := n, log := st.log ++ l } := by
  refine ⟨⟨fun _ h => h, fun _ h => h, ⟨l, rfl⟩⟩, fun h => h⟩

theorem goodStep_store (st : EngineState) (id c : String) :
    GoodStep st
      { st with context := hmInsert st.context id c,
                executed := execInsert st.executed id } := by
  refine ⟨⟨fun x h => mem_execInsert.mpr (Or.inr h),
          fun k h => isSome_hmGet_hmInsert id c h, ⟨[], by simp⟩⟩, ?_⟩
  rintro ⟨hn, hc⟩
  refine ⟨nodup_execInsert id hn, ?_⟩
  intro x hx
  rcases mem_execInsert.mp hx with rfl | hx
  · simp [hmGet_hmInsert_self]
  · exact isSome_hmGet_hmInsert id c (hc x hx)

-- ═════════════════════════════════════════════════════════════════════
-- GoodStep preservation through every traversal loop
-- ═════════════════════════════════════════════════════════════════════

theorem storeResults_good :
    ∀ (results : List (String × Except AgentError String)) (st : EngineState),
      GoodStep st (storeResults results st).1 := by
  intro results
  induction results with
  | nil => intro st; exact goodRefl st
  | cons p rest ih =>
    intro st
    rcases p with ⟨id, r⟩
    cases r with
    | ok content =>
      simp only [storeResults]
      exact goodTrans (goodStep_store st id content) (ih _)
    | error e => exact goodRefl st

theorem edgeList_good {recurse : Recurse}
    (hrec : ∀ e st, GoodStep st (recurse e st).1) :
    ∀ (l : List EdgeConfig) (st : EngineState),
      GoodStep st (edgeList recurse l st).1 := by
  intro l
  induction l with
  | nil => intro st; exact goodRefl st
  | cons e rest ih =>
    intro st
    simp only [edgeList]
    rcases h : recurse e st with ⟨st', r⟩
    have he := hrec e st
    rw [h] at he
    cases r with
    | ok _ => exact goodTrans he (ih st')
    | error _ => exact he

theorem followEdges_good {recurse : Recurse}
    (hrec : ∀ e st, GoodStep st (recurse e st).1) :
    ∀ (l : List EdgeConfig) (st : EngineState),
      GoodStep st (followEdges recurse l st).1 := by
  intro l
  induction l with
  | nil => intro st; exact goodRefl st
  | cons e rest ih =>
    intro st
    simp only [followEdges]
    split
    · exact ih st
    · rcases h : recurse e st with ⟨st', r⟩
      have he := hrec e st
      rw [h] at he
      cases r with
      | ok _ => exact goodTrans he (ih st')
      | error _ => exact he

theorem parFollowups_good {E : PipelineEngine} {recurse : Recurse}
    (hrec : ∀ e st, GoodStep st (recurse e st).1) :
    ∀ (l : List String) (st : EngineState),
      GoodStep st (parFollowups E recurse l st).1 := by
  intro l
  induction l with
  | nil => intro st; exact goodRefl st
  | cons id rest ih =>
    intro st
    simp only [parFollowups]
    rcases h : followEdges recurse (E.get_outgoing_edges id) st with ⟨st', r⟩
    have he := followEdges_good hrec (E.get_outgoing_edges id) st
    rw [h] at he
    cases r with
    | ok _ => exact goodTrans he (ih st')
    | error _ => exact he

theorem seqTargets_good {E : PipelineEngine} {chat : Chat} {recurse : Recurse}
    (hrec : ∀ e st, GoodStep st (recurse e st).1) :
    ∀ (l : List String) (st : EngineState),
      GoodStep st (seqTargets E chat recurse l st).1 := by
  intro l
  induction l with
  | nil => intro st; exact goodRefl st
  | cons id rest ih =>
    intro st
    simp only [seqTargets]
    split
    · exact ih st
    · rcases hn : E.get_node id with _ | node
      · simp only [hn]
        exact ih st
      · simp only [hn]
        set st1 : EngineState :=
          { st with step := st.step + 1, log := st.log ++ [id] } with hst1
        have h1 : GoodStep st st1 := goodStep_logAppend st [id] (st.step + 1)
        rcases hx : execute_node_static chat id node.node_type
            (E.get_node_model node) node.prompt
            (get_input_for_node E.config.edges id st.context) st1.step
          with e | content
        · simp only [hx]
          exact h1
        · simp only [hx]
          set st2 : EngineState :=
            { st1 with context := hmInsert st1.context id content,
                       executed := execInsert st1.executed id } with hst2
          have h2 : GoodStep st1 st2 := goodStep_store st1 id content
          rcases hl : edgeList recurse (E.get_outgoing_edges id) st2
            with ⟨st3, r⟩
          have h3 := edgeList_good hrec (E.get_outgoing_edges id) st2
          rw [hl] at h3
          cases r with
          | ok _ =>
            exact goodTrans h1 (goodTrans h2 (goodTrans h3 (ih st3)))
          | error _ => exact goodTrans h1 (goodTrans h2 h3)

theorem process_edge_good (E : PipelineEngine) (chat : Chat) :
    ∀ (fuel : Nat) (edge : EdgeConfig) (st : EngineState),
      GoodStep st (process_edge E chat fuel edge st).1 := by
  intro fuel
  induction fuel with
  | zero => intro edge st; exact goodRefl st
  | succ n ih =>
    intro edge st
    simp only [process_edge]
    split
    · exact goodRefl st
    · split
      · -- parallel branch
        set data := collectNodeData E edge.to_.asVec st with hdata
        set st1 : EngineState :=
          { st with step := st.step + data.length,
                    log := st.log ++ data.map (·.1) } with hst1
        have h1 : GoodStep st st1 :=
          goodStep_logAppend st (data.map (·.1)) (st.step + data.length)
        rcases hs : storeResults (runBatch chat data st.step) st1
          with ⟨st2, r⟩
        have h2 := storeResults_good (runBatch chat data st.step) st1
        rw [hs] at h2
        cases r with
        | ok _ =>
          simp only [hs]
          exact goodTrans h1 (goodTrans h2 (parFollowups_good ih _ st2))
        | error _ =>
          simp only [hs]
          exact goodTrans h1 h2
      · exact seqTargets_good ih edge.to_.asVec st

-- ═════════════════════════════════════════════════════════════════════
-- Characterizations of the parallel batch and the store loop
-- ═════════════════════════════════════════════════════════════════════

theorem storeResults_log :
    ∀ (results : List (String × Except AgentError String)) (st : EngineState),
      (storeResults results st).1.log = st.log := by
  intro results
  induction results with
  | nil => intro st; rfl
  | cons p rest ih =>
    intro st
    rcases p with ⟨pid, r⟩
    cases r with
    | ok content => simp only [storeResults]; rw [ih]
    | error e => rfl

theorem storeResults_ok_mem :
    ∀ (results : List (String × Except AgentError String))
      (st st' : EngineState),
      storeResults results st = (st', .ok ()) →
      ∀ id ∈ results.map (·.1),
        id ∈ st'.executed ∧ (hmGet st'.context id).isSome := by
  intro results
  induction results with
  | nil => intro st st' h id hid; simp at hid
  | cons p rest ih =>
    intro st st' h id hid
    rcases p with ⟨pid, r⟩
    cases r with
    | error e => simp only [storeResults] at h; cases h
    | ok content =>
      simp only [storeResults] at h
      simp only [List.map_cons, List.mem_cons] at hid
      rcases hid with rfl | hid'
      · have hg := storeResults_good rest
          { st with context := hmInsert st.context id content,
                    executed := execInsert st.executed id }
        rw [h] at hg
        exact ⟨hg.1.1 id (self_mem_execInsert _ _),
               hg.1.2.1 id (by simp [hmGet_hmInsert_self])⟩
      · exact ih _ st' h id hid'

theorem runBatch_ids (chat : Chat) :
    ∀ (data : List (String × NodeType × ModelConfig × Option String × String))
      (n : Nat), (runBatch chat data n).map (·.1) = data.map (·.1) := by
  intro data
  induction data with
  | nil => intro n; rfl
  | cons p rest ih =>
    intro n
    rcases p with ⟨id, ty, model, prompt, input⟩
    simp only [runBatch, List.map_cons]
    rw [ih (n + 1)]

theorem filterMap_node_fst (E : PipelineEngine) (st : EngineState) :
    ∀ (l : List String),
      (l.filterMap (fun id => (E.get_node id).map (fun node =>
        (id, node.node_type, E.get_node_model node, node.prompt,
          get_input_for_node E.config.edges id st.context)))).map (·.1) =
      l.filter (fun id => (E.get_node id).isSome) := by
  intro l
  induction l with
  | nil => rfl
  | cons id rest ih =>
    simp only [List.filterMap_cons, List.filter_cons]
    rcases h : E.get_node id with _ | node
    · simpa [h] using ih
    · simpa [h] using ih

theorem collectNodeData_ids (E : PipelineEngine) (targets : List String)
    (st : EngineState) :
    (collectNodeData E targets st).map (·.1) =
      (targets.filter (fun id => !st.executed.contains id)).filter
        (fun id => (E.get_node id).isSome) := by
  unfold collectNodeData
  exact filterMap_node_fst E st _

theorem collectNodeData_ids_nodup (E : PipelineEngine)
    {targets : List String} (st : EngineState) (h : targets.Nodup) :
    ((collectNodeData E targets st).map (·.1)).Nodup := by
  rw [collectNodeData_ids]
  exact ((List.filter_sublist _).trans (List.filter_sublist _)).nodup h

theorem collectNodeData_ids_not_executed (E : PipelineEngine)
    {targets : List String} {st : EngineState} {id : String}
    (h : id ∈ (collectNodeData E targets st).map (·.1)) :
    id ∉ st.executed := by
  rw [collectNodeData_ids] at h
  have h1 := (List.mem_filter.mp ((List.filter_sublist _).subset h)).2
  intro hmem
  rw [contains_iff_mem.mpr hmem] at h1
  simp at h1

theorem mem_collectNodeData_ids (E : PipelineEngine)
    {targets : List String} {st : EngineState} {id : String}
    (hmem : id ∈ targets) (hexec : id ∉ st.executed)
    (hnode : (E.get_node id).isSome) :
    id ∈ (collectNodeData E targets st).map (·.1) := by
  rw [collectNodeData_ids]
  refine List.mem_filter.mpr ⟨List.mem_filter.mpr ⟨hmem, ?_⟩, by simp [hnode]⟩
  simp only [Bool.not_eq_true']
  rw [← Bool.not_eq_true]
  intro hc
  exact hexec (contains_iff_mem.mp hc)

-- ═════════════════════════════════════════════════════════════════════
-- Log invariant preservation (at-most-once dispatch)
-- ═════════════════════════════════════════════════════════════════════

theorem edgeList_logOk {E : PipelineEngine} {recurse : Recurse}
    (hrec : ∀ e ∈ E.config.edges, ∀ st, LogInv st →
      (recurse e st).1.log.Nodup ∧
      ((recurse e st).2 = .ok () → LogInv (recurse e st).1)) :
    ∀ (l : List EdgeConfig), (∀ e ∈ l, e ∈ E.config.edges) →
      ∀ st, LogInv st →
      (edgeList recurse l st).1.log.Nodup ∧
      ((edgeList recurse l st).2 = .ok () → LogInv (edgeList recurse l st).1) := by
  intro l
  induction l with
  | nil => intro _ st h; exact ⟨h.1, fun _ => h⟩
  | cons e rest ih =>
    intro hsub st h
    simp only [edgeList]
    rcases hr : recurse e st with ⟨st', r⟩
    have he := hrec e (hsub e (by simp)) st h
    rw [hr] at he
    cases r with
    | ok _ =>
      exact ih (fun x hx => hsub x (by simp [hx])) st' (he.2 rfl)
    | error _ => exact ⟨he.1, by intro hc; cases hc⟩

theorem followEdges_logOk {E : PipelineEngine} {recurse : Recurse}
    (hrec : ∀ e ∈ E.config.edges, ∀ st, LogInv st →
      (recurse e st).1.log.Nodup ∧
      ((recurse e st).2 = .ok () → LogInv (recurse e st).1)) :
    ∀ (l : List EdgeConfig), (∀ e ∈ l, e ∈ E.config.edges) →
      ∀ st, LogInv st →
      (followEdges recurse l st).1.log.Nodup ∧
      ((followEdges recurse l st).2 = .ok () →
        LogInv (followEdges recurse l st).1) := by
  intro l
  induction l with
  | nil => intro _ st h; exact ⟨h.1, fun _ => h⟩
  | cons e rest ih =>
    intro hsub st h
    simp only [followEdges]
    split
    · exact ih (fun x hx => hsub x (by simp [hx])) st h
    · rcases hr : recurse e st with ⟨st', r⟩
      have he := hrec e (hsub e (by simp)) st h
      rw [hr] at he
      cases r with
      | ok _ =>
        exact ih (fun x hx => hsub x (by simp [hx])) st' (he.2 rfl)
      | error _ => exact ⟨he.1, by intro hc; cases hc⟩

theorem parFollowups_logOk {E : PipelineEngine} {recurse : Recurse}
    (hrec : ∀ e ∈ E.config.edges, ∀ st, LogInv st →
      (recurse e st).1.log.Nodup ∧
      ((recurse e st).2 = .ok () → LogInv (recurse e st).1)) :
    ∀ (l : List String), ∀ st, LogInv st →
      (parFollowups E recurse l st).1.log.Nodup ∧
      ((parFollowups E recurse l st).2 = .ok () →
        LogInv (parFollowups E recurse l st).1) := by
  intro l
  induction l with
  | nil => intro st h; exact ⟨h.1, fun _ => h⟩
  | cons id rest ih =>
    intro st h
    simp only [parFollowups]
    rcases hf : followEdges recurse (E.get_outgoing_edges id) st with ⟨st', r⟩
    have hsub : ∀ e ∈ E.get_outgoing_edges id, e ∈ E.config.edges := by
      intro e he
      exact (List.mem_filter.mp he).1
    have he := followEdges_logOk hrec (E.get_outgoing_edges id) hsub st h
    rw [hf] at he
    cases r with
    | ok _ => exact ih st' (he.2 rfl)
    | error _ => exact ⟨he.1, by intro hc; cases hc⟩

theorem seqTargets_logOk {E : PipelineEngine} {chat : Chat}
    {recurse : Recurse}
    (hrec : ∀ e ∈ E.config.edges, ∀ st, LogInv st →
      (recurse e st).1.log.Nodup ∧
      ((recurse e st).2 = .ok () → LogInv (recurse e st).1)) :
    ∀ (l : List String), ∀ st, LogInv st →
      (seqTargets E chat recurse l st).1.log.Nodup ∧
      ((seqTargets E chat recurse l st).2 = .ok () →
        LogInv (seqTargets E chat recurse l st).1) := by
  intro l
  induction l with
  | nil => intro st h; exact ⟨h.1, fun _ => h⟩
  | cons id rest ih =>
    intro st h
    simp only [seqTargets]
    split
    · exact ih st h
    · next hcond =>
      have hnotexec : id ∉ st.executed := by
        intro hmem
        apply hcond
        rw [Bool.or_eq_true]
        exact Or.inl (contains_iff_mem.mpr hmem)
      have hnotlog : id ∉ st.log := fun hl => hnotexec (h.2 id hl)
      have hlog1 : (st.log ++ [id]).Nodup := by
        refine List.Nodup.append h.1 (by simp) ?_
        intro x hx hx'
        simp at hx'
        subst hx'
        exact hnotlog hx
      rcases hn : E.get_node id with _ | node
      · simp only [hn]
        exact ih st h
      · simp only [hn]
        rcases hx : execute_node_static chat id node.node_type
            (E.get_node_model node) node.prompt
            (get_input_for_node E.config.edges id st.context)
            ({ st with step := st.step + 1, log := st.log ++ [id]} :
              EngineState).step
          with e | content
        · simp only [hx]
          exact ⟨hlog1, by intro hc; cases hc⟩
        · simp only [hx]
          have hinv2 : LogInv
              { st with
                step := st.step + 1, log := st.log ++ [id],
                context := hmInsert st.context id content,
                executed := execInsert st.executed id } := by
            refine ⟨hlog1, ?_⟩
            intro x hx'
            rcases List.mem_append.mp hx' with hx' | hx'
            · exact mem_execInsert.mpr (Or.inr (h.2 x hx'))
            · simp at hx'
              subst hx'
              exact self_mem_execInsert _ _
          rcases hl : edgeList recurse (E.get_outgoing_edges id) _
            with ⟨st3, r⟩
          have hsub : ∀ e ∈ E.get_outgoing_edges id, e ∈ E.config.edges := by
            intro e he
            exact (List.mem_filter.mp he).1
          have he := edgeList_logOk hrec (E.get_outgoing_edges id) hsub _ hinv2
          rw [hl] at he
          cases r with
          | ok _ => exact ih st3 (he.2 rfl)
          | error _ => exact ⟨he.1, by intro hc; cases hc⟩

theorem process_edge_logOk (E : PipelineEngine) (chat : Chat)
    (H : ∀ e ∈ E.config.edges, e.to_.asVec.Nodup) :
    ∀ (fuel : Nat) (edge : EdgeConfig), edge.to_.asVec.Nodup →
      ∀ st, LogInv st →
      (process_edge E chat fuel edge st).1.log.Nodup ∧
      ((process_edge E chat fuel edge st).2 = .ok () →
        LogInv (process_edge E chat fuel edge st).1) := by
  intro fuel
  induction fuel with
  | zero => intro edge _ st h; exact ⟨h.1, by intro hc; cases hc⟩
  | succ n ih =>
    have hrec : ∀ e ∈ E.config.edges, ∀ st, LogInv st →
        (process_edge E chat n e st).1.log.Nodup ∧
        ((process_edge E chat n e st).2 = .ok () →
          LogInv (process_edge E chat n e st).1) :=
      fun e he st h => ih e (H e he) st h
    intro edge hedge st h
    simp only [process_edge]
    split
    · exact ⟨h.1, fun _ => h⟩
    · split
      · -- parallel branch
        have hbatchnodup := collectNodeData_ids_nodup E st hedge
        have hdisj : st.log.Disjoint
            ((collectNodeData E edge.to_.asVec st).map (·.1)) := by
          intro x hx hx'
          exact collectNodeData_ids_not_executed E hx' (h.2 x hx)
        have hlog1 : (st.log ++
            (collectNodeData E edge.to_.asVec st).map (·.1)).Nodup :=
          List.Nodup.append h.1 hbatchnodup hdisj
        rcases hs : storeResults
            (runBatch chat (collectNodeData E edge.to_.asVec st) st.step)
            { st with
                step := st.step + (collectNodeData E edge.to_.asVec st).length,
                log := st.log ++ (collectNodeData E edge.to_.asVec st).map (·.1) }
          with ⟨st2, r⟩
        have hlog2 : st2.log = st.log ++
            (collectNodeData E edge.to_.asVec st).map (·.1) := by
          have := storeResults_log
            (runBatch chat (collectNodeData E edge.to_.asVec st) st.step)
            { st with
                step := st.step + (collectNodeData E edge.to_.asVec st).length,
                log := st.log ++ (collectNodeData E edge.to_.asVec st).map (·.1) }
          rw [hs] at this
          exact this
        cases r with
        | error _ =>
          simp only [hs]
          exact ⟨by rw [hlog2]; exact hlog1, by intro hc; cases hc⟩
        | ok _ =>
          simp only [hs]
          have hinv2 : LogInv st2 := by
            refine ⟨by rw [hlog2]; exact hlog1, ?_⟩
            intro x hx
            rw [hlog2] at hx
            rcases List.mem_append.mp hx with hx | hx
            · -- previously logged, hence previously executed
              have hg := storeResults_good
                (runBatch chat (collectNodeData E edge.to_.asVec st) st.step)
                { st with
                    step := st.step +
                      (collectNodeData E edge.to_.asVec st).length,
                    log := st.log ++
                      (collectNodeData E edge.to_.asVec st).map (·.1) }
              rw [hs] at hg
              exact hg.1.1 x (h.2 x hx)
            · -- stored by the batch
              have hx' : x ∈ (runBatch chat
                  (collectNodeData E edge.to_.asVec st) st.step).map (·.1) := by
                rw [runBatch_ids]
                exact hx
              exact (storeResults_ok_mem _ _ st2 hs x hx').1
          exact parFollowups_logOk hrec edge.to_.asVec st2 hinv2
      · exact seqTargets_logOk hrec edge.to_.asVec st h

-- ═════════════════════════════════════════════════════════════════════
-- Claim C3: model resolution
-- ═════════════════════════════════════════════════════════════════════

/-- C3: model resolution for a node is total (the Lean function returns a
`ModelConfig` for every input) and follows the priority chain: the
run-scoped override when supplied, else the node's static `model` field,
else the default; and any id absent from the resolver's map — including a
stale override — resolves to the default model rather than an error. -/
theorem c3_model_resolution (E : PipelineEngine) (node : NodeConfig)
    (id : String) :
    (∀ o, hmGet E.node_overrides node.id = some o →
      E.get_node_model node = E.resolver.resolve (some o)) ∧
    (hmGet E.node_overrides node.id = none →
      E.get_node_model node = E.resolver.resolve node.model) ∧
    (hmGet E.resolver.models id = none →
      E.resolver.resolve (some id) = E.resolver.default_model) ∧
    (E.resolver.resolve none = E.resolver.default_model) ∧
    (∀ o, hmGet E.node_overrides node.id = some o →
      hmGet E.resolver.models o = none →
      E.get_node_model node = E.resolver.default_model) := by
  refine ⟨?_, ?_, ?_, ?_, ?_⟩
  · intro o h
    simp [PipelineEngine.get_node_model, h, Option.orElse]
  · intro h
    simp [PipelineEngine.get_node_model, h, Option.orElse]
  · intro h
    simp [ModelResolver.resolve, h]
  · rfl
  · intro o h hmiss
    simp [PipelineEngine.get_node_model, h, Option.orElse,
      ModelResolver.resolve, hmiss]

/-- Witness for C3 at a concrete resolver: the id `"zzz"` is not a key of
`exEngineSeq`'s model map and resolves to the default model. -/
theorem c3_model_resolution_witness :
    exEngineSeq.resolver.resolve (some "zzz") =
      exEngineSeq.resolver.default_model :=
  (c3_model_resolution exEngineSeq ⟨"a", .Gate, none, none⟩ "zzz").2.2.1
    (by decide)

-- ═════════════════════════════════════════════════════════════════════
-- Claim C4: at-most-once execution
-- ═════════════════════════════════════════════════════════════════════

/-- Counterexample to C4 as stated: in the pipeline `exPipeDup` — which
satisfies the PipelineConfig invariants — the parallel edge
`input → ["a", "a"]` lists node `a` twice, and a single run dispatches
`execute_node_static` twice for `a` (the ghost log records both
invocations), so execute_node is NOT invoked at most once per node id for
every pipeline. -/
theorem c4_counterexample :
    PipelineWF exPipeDup ∧
    (runTraversal exEngineDup chatEcho 5 "x").1.log = ["a", "a"] ∧
    ¬ (runTraversal exEngineDup chatEcho 5 "x").1.log.Nodup := by
  refine ⟨by decide, by decide, by decide⟩

/-- C4 (amended): provided every edge's `to` endpoint list is
duplicate-free (endpoints are ordered sets in the data model), a run of
the engine dispatches `execute_node_static` at most once per node id (the
dispatch log is duplicate-free), and `executed` — a `HashSet` — never
holds a node id twice. -/
theorem c4_execute_at_most_once (E : PipelineEngine) (chat : Chat)
    (fuel : Nat) (input : String)
    (H : ∀ e ∈ E.config.edges, e.to_.asVec.Nodup) :
    (runTraversal E chat fuel input).1.log.Nodup ∧
    (runTraversal E chat fuel input).1.executed.Nodup := by
  have hinv0 : LogInv (initState input) := by
    constructor
    · simp [initState]
    · intro id h
      simp [initState] at h
  have hst0 : StInv (initState input) := by
    constructor
    · simp [initState]
    · intro id h
      simp [initState] at h
  have hsub : ∀ e ∈ start_edges E, e ∈ E.config.edges :=
    fun e he => (List.mem_filter.mp he).1
  have hrec : ∀ e ∈ E.config.edges, ∀ st, LogInv st →
      (process_edge E chat fuel e st).1.log.Nodup ∧
      ((process_edge E chat fuel e st).2 = .ok () →
        LogInv (process_edge E chat fuel e st).1) :=
    fun e he st h => process_edge_logOk E chat H fuel e (H e he) st h
  have h1 := edgeList_logOk hrec (start_edges E) hsub (initState input) hinv0
  have h2 := edgeList_good (process_edge_good E chat fuel) (start_edges E)
    (initState input)
  exact ⟨h1.1, (h2.2 hst0).1⟩

/-- Witness for C4 at the parallel fan-out pipeline: the run dispatches
`a`, `b`, `c` once each. -/
theorem c4_execute_at_most_once_witness :
    (runTraversal exEnginePar chatEcho 10 "X").1.log.Nodup ∧
    (runTraversal exEnginePar chatEcho 10 "X").1.executed.Nodup :=
  c4_execute_at_most_once exEnginePar chatEcho 10 "X" (by decide)

-- ═════════════════════════════════════════════════════════════════════
-- Claim C5: parallel join marks both targets executed
-- ═════════════════════════════════════════════════════════════════════

theorem process_edge_parallel_eq (E : PipelineEngine) (chat : Chat)
    (n : Nat) (edge : EdgeConfig) (st : EngineState)
    (htype : edge.edge_type = .Parallel)
    (hne : ¬ (edge.to_.asVec = ["output"])) :
    process_edge E chat (n + 1) edge st =
      match storeResults
          (runBatch chat (collectNodeData E edge.to_.asVec st) st.step)
          { st with
              step := st.step + (collectNodeData E edge.to_.asVec st).length,
              log := st.log ++
                (collectNodeData E edge.to_.asVec st).map (·.1) } with
      | (st2, .ok _) =>
        parFollowups E (process_edge E chat n) edge.to_.asVec st2
      | (st2, .error r) => (st2, .error r) := by
  simp only [process_edge]
  rw [if_neg hne, htype]

/-- Counterexample to C5 as stated: the pipeline `exPipeBoundary`
satisfies the PipelineConfig invariants and its parallel edge has
`to = ["output", "b"]` — both endpoints being a node id or a boundary id —
yet after `process_edge` returns without error, the target `"output"` is
not a member of `executed` (the boundary id is silently skipped because
`get_node` fails for it). -/
theorem c5_counterexample :
    exBoundaryEdge.edge_type = .Parallel ∧
    exBoundaryEdge.to_.asVec = ["output", "b"] ∧
    PipelineWF exPipeBoundary ∧
    (process_edge exEngineBoundary chatEcho 3 exBoundaryEdge
      (initState "x")).2 = .ok () ∧
    "output" ∉ (process_edge exEngineBoundary chatEcho 3 exBoundaryEdge
      (initState "x")).1.executed := by
  refine ⟨rfl, rfl, by decide, by decide, by decide⟩

/-- C5 (amended): for a parallel edge with `to = [A, B]` where A and B are
ids of nodes of the pipeline (boundary ids are skipped by the branch),
when `process_edge` returns without error both A and B are members of
`executed` and the context holds an output value for each. -/
theorem c5_parallel_join (E : PipelineEngine) (chat : Chat) (fuel : Nat)
    (e : EdgeConfig) (A B : String) (st st' : EngineState)
    (htype : e.edge_type = .Parallel)
    (hto : e.to_.asVec = [A, B])
    (hA : (E.get_node A).isSome) (hB : (E.get_node B).isSome)
    (hst : StInv st)
    (hrun : process_edge E chat fuel e st = (st', .ok ())) :
    (A ∈ st'.executed ∧ B ∈ st'.executed) ∧
    (hmGet st'.context A).isSome ∧ (hmGet st'.context B).isSome := by
  have hgood := process_edge_good E chat fuel e st
  rw [hrun] at hgood
  cases fuel with
  | zero => simp [process_edge] at hrun
  | succ n =>
    have hne : ¬ (e.to_.asVec = ["output"]) := by
      rw [hto]
      simp
    rw [process_edge_parallel_eq E chat n e st htype hne] at hrun
    rcases hs : storeResults
        (runBatch chat (collectNodeData E e.to_.asVec st) st.step)
        { st with
            step := st.step + (collectNodeData E e.to_.asVec st).length,
            log := st.log ++ (collectNodeData E e.to_.asVec st).map (·.1) }
      with ⟨st2, r2⟩
    rw [hs] at hrun
    cases r2 with
    | error er =>
      have hbad : (st2, (Except.error er : Except RunError Unit)) =
          (st', .ok ()) := hrun
      simp at hbad
    | ok u =>
      have hrun2 : parFollowups E (process_edge E chat n) e.to_.asVec st2 =
          (st', .ok ()) := hrun
      have hpf := @parFollowups_good E (process_edge E chat n)
        (process_edge_good E chat n) e.to_.asVec st2
      rw [hrun2] at hpf
      have hmain : ∀ x, x ∈ e.to_.asVec → (E.get_node x).isSome →
          x ∈ st'.executed ∧ (hmGet st'.context x).isSome := by
        intro x hxmem hxnode
        by_cases hxexec : x ∈ st.executed
        · exact ⟨hgood.1.1 x hxexec,
                 hgood.1.2.1 x (hst.2 x hxexec)⟩
        · have hxbatch : x ∈ (collectNodeData E e.to_.asVec st).map (·.1) :=
            mem_collectNodeData_ids E hxmem hxexec hxnode
          have hxrun : x ∈ (runBatch chat (collectNodeData E e.to_.asVec st)
              st.step).map (·.1) := by
            rw [runBatch_ids]
            exact hxbatch
          have hx2 := storeResults_ok_mem _ _ st2 hs x hxrun
          exact ⟨hpf.1.1 x hx2.1, hpf.1.2.1 x hx2.2⟩
      have hAmem : A ∈ e.to_.asVec := by rw [hto]; simp
      have hBmem : B ∈ e.to_.asVec := by rw [hto]; simp
      have hAres := hmain A hAmem hA
      have hBres := hmain B hBmem hB
      exact ⟨⟨hAres.1, hBres.1⟩, hAres.2, hBres.2⟩

/-- Witness for C5 at the concrete fan-out pipeline: after the parallel
edge of `exPipePar` completes, both `a` and `b` are executed with stored
outputs. -/
theorem c5_parallel_join_witness :
    ("a" ∈ (process_edge exEnginePar chatEcho 5 exParEdge
        (initState "X")).1.executed ∧
     "b" ∈ (process_edge exEnginePar chatEcho 5 exParEdge
        (initState "X")).1.executed) ∧
    (hmGet (process_edge exEnginePar chatEcho 5 exParEdge
        (initState "X")).1.context "a").isSome ∧
    (hmGet (process_edge exEnginePar chatEcho 5 exParEdge
        (initState "X")).1.context "b").isSome :=
  c5_parallel_join exEnginePar chatEcho 5 exParEdge "a" "b" (initState "X") _
    rfl rfl (by decide) (by decide) (by decide) (by decide)

-- ═════════════════════════════════════════════════════════════════════
-- Claim C1: output selection
-- ═════════════════════════════════════════════════════════════════════

theorem find?_eq_head_filter {α : Type} (p : α → Bool) :
    ∀ (l : List α), l.find? p = (l.filter p).head? := by
  intro l
  induction l with
  | nil => rfl
  | cons a rest ih =>
    cases h : p a
    · rw [List.find?_cons_of_neg _ (by simp [h]),
        List.filter_cons_of_neg (by simp [h])]
      exact ih
    · rw [List.find?_cons_of_pos _ h, List.filter_cons_of_pos h]
      rfl

theorem selectOutput_eq (edges : List EdgeConfig) (ctx : Ctx) :
    selectOutput edges ctx =
      match edges.find? isOutputEdge with
      | some e => ((edgeInputs ctx e).getLast?).getD ""
      | none => "" := by
  induction edges with
  | nil => rfl
  | cons e rest ih =>
    simp only [selectOutput, List.find?_cons]
    cases h : isOutputEdge e <;> simp [h, ih]

/-- C1: when the traversal succeeds, `execute_stream` locates the first
edge whose `to` is the single id `"output"` and returns the last present
context value among that edge's `from` endpoints (the empty string when
no edge terminates at `"output"`); in particular, with exactly one edge
`X → output` whose producer stored a value, the run returns
`context[X]`. -/
theorem c1_output_selection (E : PipelineEngine) (chat : Chat) (fuel : Nat)
    (input : String) (st : EngineState)
    (hrun : runTraversal E chat fuel input = (st, .ok ())) :
    (E.config.edges.find? isOutputEdge = none →
      execute_stream E chat fuel input = .ok "") ∧
    (∀ e, E.config.edges.find? isOutputEdge = some e →
      execute_stream E chat fuel input =
        .ok (((edgeInputs st.context e).getLast?).getD "")) ∧
    (∀ e X v, E.config.edges.filter isOutputEdge = [e] →
      e.from_ = .Single X → hmGet st.context X = some v →
      execute_stream E chat fuel input = .ok v) := by
  have hx : execute_stream E chat fuel input =
      .ok (selectOutput E.config.edges st.context) := by
    unfold execute_stream
    rw [hrun]
  refine ⟨?_, ?_, ?_⟩
  · intro h
    rw [hx, selectOutput_eq, h]
  · intro e h
    rw [hx, selectOutput_eq, h]
  · intro e X v hfilter hfrom hget
    have hfind : E.config.edges.find? isOutputEdge = some e := by
      rw [find?_eq_head_filter, hfilter]
      rfl
    rw [hx, selectOutput_eq, hfind]
    simp [edgeInputs, hfrom, EdgeEndpoint.asVec, List.filterMap_cons, hget]

/-- Witness for C1 at the two-stage pipeline: the single output edge is
`b → output` and the run returns `context[b]`. -/
theorem c1_output_selection_witness :
    execute_stream exEngineSeq chatEcho 10 "hi" = .ok "R:hi" := by
  have h := c1_output_selection exEngineSeq chatEcho 10 "hi"
    (runTraversal exEngineSeq chatEcho 10 "hi").1 (by decide)
  exact h.2.2 ⟨.Single "b", .Single "output", .Direct⟩ "b" "R:hi"
    (by decide) rfl (by decide)

-- ═════════════════════════════════════════════════════════════════════
-- Claim C2: input assembly
-- ═════════════════════════════════════════════════════════════════════

/-- Counterexample to C2 as stated: node `n` has two incoming edges
`a → n` and `b → n` with both upstream values present in the context; the
claim's reading gathers across the edges and joins, yielding
`"A\n\n---\n\nB"`, but the source stops at the first edge with a
non-empty gather and yields `"A"`. -/
theorem c2_counterexample :
    get_input_for_node exFanInEdges "n" exFanInCtx = "A" ∧
    specInputAssembly exFanInEdges "n" exFanInCtx = "A" ++ inputSep ++ "B" ∧
    get_input_for_node exFanInEdges "n" exFanInCtx ≠
      specInputAssembly exFanInEdges "n" exFanInCtx := by
  refine ⟨by decide, by decide, by decide⟩

/-- C2 (amended): the input of node N is assembled from the FIRST edge,
in listed order, whose `to` contains N and whose `from` endpoints have at
least one context value present: those values are joined with the literal
separator `"\n\n---\n\n"`; when no such edge exists, the input falls back
to `context["input"]` (the user's message). -/
theorem c2_input_assembly (edges : List EdgeConfig) (node_id : String)
    (ctx : Ctx) :
    get_input_for_node edges node_id ctx =
      match edges.find? (fun e =>
          e.to_.asVec.contains node_id && !(edgeInputs ctx e).isEmpty) with
      | some e => String.intercalate inputSep (edgeInputs ctx e)
      | none => (hmGet ctx "input").getD "" := by
  induction edges with
  | nil => rfl
  | cons e rest ih =>
    simp only [get_input_for_node, List.find?_cons]
    cases hc : e.to_.asVec.contains node_id
    · simp [hc, ih]
    · cases he : (edgeInputs ctx e).isEmpty
      · simp [hc, he, ih]
      · simp [hc, he, ih]

-- ═════════════════════════════════════════════════════════════════════
-- Claim C6: tracing collector lifecycle
-- ═════════════════════════════════════════════════════════════════════

theorem U32M_pos : 0 < U32M := by decide

theorem U64M_pos : 0 < U64M := by decide

theorem foldl_metricsStep :
    ∀ (ms : List NodeMetrics) (pm : PipelineMetrics),
      pm.total_input_tokens < U32M → pm.total_output_tokens < U32M →
      pm.total_elapsed_ms < U64M → pm.total_tool_calls < U32M →
      (ms.foldl metricsStep pm).total_input_tokens =
        (pm.total_input_tokens + (ms.map (·.input_tokens)).sum) % U32M ∧
      (ms.foldl metricsStep pm).total_output_tokens =
        (pm.total_output_tokens + (ms.map (·.output_tokens)).sum) % U32M ∧
      (ms.foldl metricsStep pm).total_elapsed_ms =
        (pm.total_elapsed_ms + (ms.map (·.elapsed_ms)).sum) % U64M ∧
      (ms.foldl metricsStep pm).total_tool_calls =
        (pm.total_tool_calls + (ms.map (·.tool_call_count)).sum) % U32M ∧
      (ms.foldl metricsStep pm).node_metrics = pm.node_metrics ∧
      (ms.foldl metricsStep pm).pipeline_id = pm.pipeline_id := by
  intro ms
  induction ms with
  | nil =>
    intro pm h1 h2 h3 h4
    simp [Nat.mod_eq_of_lt h1, Nat.mod_eq_of_lt h2, Nat.mod_eq_of_lt h3,
      Nat.mod_eq_of_lt h4]
  | cons m rest ih =>
    intro pm h1 h2 h3 h4
    simp only [List.foldl_cons, List.map_cons, List.sum_cons]
    have hstep := ih (metricsStep pm m)
      (Nat.mod_lt _ U32M_pos) (Nat.mod_lt _ U32M_pos)
      (Nat.mod_lt _ U64M_pos) (Nat.mod_lt _ U32M_pos)
    refine ⟨?_, ?_, ?_, ?_, hstep.2.2.2.2.1, hstep.2.2.2.2.2⟩
    · rw [hstep.1]
      show ((pm.total_input_tokens + m.input_tokens) % U32M + _) % U32M = _
      rw [Nat.mod_add_mod, Nat.add_assoc]
    · rw [hstep.2.1]
      show ((pm.total_output_tokens + m.output_tokens) % U32M + _) % U32M = _
      rw [Nat.mod_add_mod, Nat.add_assoc]
    · rw [hstep.2.2.1]
      show ((pm.total_elapsed_ms + m.elapsed_ms) % U64M + _) % U64M = _
      rw [Nat.mod_add_mod, Nat.add_assoc]
    · rw [hstep.2.2.2.1]
      show ((pm.total_tool_calls + m.tool_call_count) % U32M + _) % U32M = _
      rw [Nat.mod_add_mod, Nat.add_assoc]

theorem ofRecorded_totals (pid : String) (ms : List NodeMetrics)
    (h1 : (ms.map (·.input_tokens)).sum < U32M)
    (h2 : (ms.map (·.output_tokens)).sum < U32M)
    (h3 : (ms.map (·.elapsed_ms)).sum < U64M)
    (h4 : (ms.map (·.tool_call_count)).sum < U32M) :
    (PipelineMetrics.ofRecorded pid ms).total_input_tokens =
      (ms.map (·.input_tokens)).sum ∧
    (PipelineMetrics.ofRecorded pid ms).total_output_tokens =
      (ms.map (·.output_tokens)).sum ∧
    (PipelineMetrics.ofRecorded pid ms).total_elapsed_ms =
      (ms.map (·.elapsed_ms)).sum ∧
    (PipelineMetrics.ofRecorded pid ms).total_tool_calls =
      (ms.map (·.tool_call_count)).sum ∧
    (PipelineMetrics.ofRecorded pid ms).node_metrics = ms ∧
    (PipelineMetrics.ofRecorded pid ms).pipeline_id = pid := by
  unfold PipelineMetrics.ofRecorded
  have h := foldl_metricsStep ms
    { pipeline_id := pid, total_input_tokens := 0, total_output_tokens := 0,
      total_elapsed_ms := 0, total_tool_calls := 0, node_metrics := ms }
    U32M_pos U32M_pos U64M_pos U32M_pos
  refine ⟨?_, ?_, ?_, ?_, h.2.2.2.2.1, h.2.2.2.2.2⟩
  · rw [h.1]
    simpa using Nat.mod_eq_of_lt h1
  · rw [h.2.1]
    simpa using Nat.mod_eq_of_lt h2
  · rw [h.2.2.1]
    simpa using Nat.mod_eq_of_lt h3
  · rw [h.2.2.2.1]
    simpa using Nat.mod_eq_of_lt h4

theorem record_foldl :
    ∀ (ms : List NodeMetrics) (c : TracingCollector),
      ms.foldl TracingCollector.record c =
        { c with metrics := c.metrics ++ ms } := by
  intro ms
  induction ms with
  | nil => intro c; simp
  | cons m rest ih =>
    intro c
    simp only [List.foldl_cons]
    rw [ih]
    simp [TracingCollector.record]

theorem insert_trace_fresh (s : TraceStore) (t : TraceRecord)
    (h : ∀ r ∈ s.rows, r.trace_id ≠ t.trace_id) :
    s.insert_trace t = .ok ⟨s.rows ++ [rowOfTrace t]⟩ := by
  unfold TraceStore.insert_trace
  rw [if_neg]
  intro hc
  rw [List.any_eq_true] at hc
  obtain ⟨r, hr, hb⟩ := hc
  exact h r hr (by simpa using hb)

theorem update_trace_rows (rows : List TraceRow) (r0 : TraceRow)
    (t : TraceRecord) (h : ∀ r ∈ rows, r.trace_id ≠ t.trace_id)
    (h0 : r0.trace_id = t.trace_id) :
    TraceStore.update_trace ⟨rows ++ [r0]⟩ t = ⟨rows ++ [finalizeRow t r0]⟩ := by
  unfold TraceStore.update_trace
  congr 1
  rw [List.map_append]
  congr 1
  · have heach : ∀ r ∈ rows,
        (if r.trace_id == t.trace_id then finalizeRow t r else r) = id r := by
      intro r hr
      simp [h r hr]
    rw [List.map_congr_left heach, List.map_id]
  · simp [h0]

theorem finalize_rows (c : TracingCollector) (rows : List TraceRow)
    (r0 : TraceRow) (output : String) (status : TraceStatus) (now : Int)
    (hfr : ∀ r ∈ rows, r.trace_id ≠ c.trace_id)
    (h0 : r0.trace_id = c.trace_id) :
    (c.finalize ⟨rows ++ [r0]⟩ output status now).rows =
      rows ++ [({ r0 with
                  output := output,
                  total_elapsed_ms := intAsU64 (now - c.start_time),
                  total_input_tokens := c.flush.total_input_tokens,
                  total_output_tokens := c.flush.total_output_tokens,
                  total_tool_calls := c.flush.total_tool_calls,
                  status := status.as_str } : TraceRow)] := by
  unfold TracingCollector.finalize
  rw [update_trace_rows rows r0 _ hfr h0]
  rfl

/-- C6: constructing a `TracingCollector` inserts exactly one trace row
with status `running`; the flushed metrics' totals equal the
coordinate-wise sums of the recorded `NodeMetrics` (stated under the
no-overflow bounds of the `u32`/`u64` counters); and `success`/`error`
update that same row — and nothing else — exactly once, to status
`success` or `error` respectively, carrying the summed token and
tool-call totals. -/
theorem c6_collector_lifecycle (s0 : TraceStore) (tid pid pname inp : String)
    (t0 tEnd : Int) (ms : List NodeMetrics) (out emsg : String)
    (hfresh : ∀ r ∈ s0.rows, r.trace_id ≠ tid)
    (h1 : (ms.map (·.input_tokens)).sum < U32M)
    (h2 : (ms.map (·.output_tokens)).sum < U32M)
    (h3 : (ms.map (·.elapsed_ms)).sum < U64M)
    (h4 : (ms.map (·.tool_call_count)).sum < U32M) :
    ((TracingCollector.new s0 tid pid pname inp t0).2.rows =
      s0.rows ++ [⟨tid, pid, pname, t0, inp, "", 0, 0, 0, 0, "running"⟩]) ∧
    ((ms.foldl TracingCollector.record
        (TracingCollector.new s0 tid pid pname inp t0).1).flush.total_input_tokens =
          (ms.map (·.input_tokens)).sum ∧
     (ms.foldl TracingCollector.record
        (TracingCollector.new s0 tid pid pname inp t0).1).flush.total_output_tokens =
          (ms.map (·.output_tokens)).sum ∧
     (ms.foldl TracingCollector.record
        (TracingCollector.new s0 tid pid pname inp t0).1).flush.total_elapsed_ms =
          (ms.map (·.elapsed_ms)).sum ∧
     (ms.foldl TracingCollector.record
        (TracingCollector.new s0 tid pid pname inp t0).1).flush.total_tool_calls =
          (ms.map (·.tool_call_count)).sum) ∧
    ((TracingCollector.success
        (ms.foldl TracingCollector.record
          (TracingCollector.new s0 tid pid pname inp t0).1)
        (TracingCollector.new s0 tid pid pname inp t0).2 out tEnd).rows =
      s0.rows ++ [⟨tid, pid, pname, t0, inp, out, intAsU64 (tEnd - t0),
        (ms.map (·.input_tokens)).sum, (ms.map (·.output_tokens)).sum,
        (ms.map (·.tool_call_count)).sum, "success"⟩]) ∧
    ((TracingCollector.error
        (ms.foldl TracingCollector.record
          (TracingCollector.new s0 tid pid pname inp t0).1)
        (TracingCollector.new s0 tid pid pname inp t0).2 emsg tEnd).rows =
      s0.rows ++ [⟨tid, pid, pname, t0, inp, emsg, intAsU64 (tEnd - t0),
        (ms.map (·.input_tokens)).sum, (ms.map (·.output_tokens)).sum,
        (ms.map (·.tool_call_count)).sum, "error"⟩]) := by
  have hins : s0.insert_trace
      { trace_id := tid, pipeline_id := pid, pipeline_name := pname,
        timestamp := t0, input := inp, output := "", total_elapsed_ms := 0,
        total_input_tokens := 0, total_output_tokens := 0,
        total_tool_calls := 0, status := .Running } =
      .ok ⟨s0.rows ++ [⟨tid, pid, pname, t0, inp, "", 0, 0, 0, 0, "running"⟩]⟩ :=
    insert_trace_fresh s0 _ hfresh
  have hstore : (TracingCollector.new s0 tid pid pname inp t0).2 =
      ⟨s0.rows ++ [⟨tid, pid, pname, t0, inp, "", 0, 0, 0, 0, "running"⟩]⟩ := by
    show (match s0.insert_trace
        { trace_id := tid, pipeline_id := pid, pipeline_name := pname,
          timestamp := t0, input := inp, output := "", total_elapsed_ms := 0,
          total_input_tokens := 0, total_output_tokens := 0,
          total_tool_calls := 0, status := .Running } with
      | .ok s => s
      | .error _ => s0) = _
    rw [hins]
  have hcoll : (TracingCollector.new s0 tid pid pname inp t0).1 =
      { trace_id := tid, pipeline_id := pid, pipeline_name := pname,
        input := inp, start_time := t0, metrics := [] } := rfl
  have hrecd : ms.foldl TracingCollector.record
      (TracingCollector.new s0 tid pid pname inp t0).1 =
      { trace_id := tid, pipeline_id := pid, pipeline_name := pname,
        input := inp, start_time := t0, metrics := ms } := by
    rw [hcoll, record_foldl]
    simp
  have hflush := ofRecorded_totals pid ms h1 h2 h3 h4
  have hflush' : (ms.foldl TracingCollector.record
      (TracingCollector.new s0 tid pid pname inp t0).1).flush =
      PipelineMetrics.ofRecorded pid ms := by
    rw [hrecd]
    rfl
  refine ⟨by rw [hstore], ⟨?_, ?_, ?_, ?_⟩, ?_, ?_⟩
  · rw [hflush']
    exact hflush.1
  · rw [hflush']
    exact hflush.2.1
  · rw [hflush']
    exact hflush.2.2.1
  · rw [hflush']
    exact hflush.2.2.2.1
  · unfold TracingCollector.success
    rw [hrecd, hstore]
    rw [finalize_rows _ s0.rows _ out .Success tEnd hfresh rfl]
    simp only [TracingCollector.flush]
    rw [hflush.1, hflush.2.1, hflush.2.2.2.1]
    rfl
  · unfold TracingCollector.error
    rw [hrecd, hstore]
    rw [finalize_rows _ s0.rows _ emsg .Error tEnd hfresh rfl]
    simp only [TracingCollector.flush]
    rw [hflush.1, hflush.2.1, hflush.2.2.2.1]
    rfl

/-- Witness for C6 at a concrete run: empty store, two recorded nodes,
successful finish. -/
theorem c6_collector_lifecycle_witness :
    (TracingCollector.success
        (exMetrics.foldl TracingCollector.record
          (TracingCollector.new ⟨[]⟩ "t1" "p1" "P" "Hello" 100).1)
        (TracingCollector.new ⟨[]⟩ "t1" "p1" "P" "Hello" 100).2
        "World" 600).rows =
      [] ++ [⟨"t1", "p1", "P", 100, "Hello", "World", intAsU64 (600 - 100),
        (exMetrics.map (·.input_tokens)).sum,
        (exMetrics.map (·.output_tokens)).sum,
        (exMetrics.map (·.tool_call_count)).sum, "success"⟩] :=
  (c6_collector_lifecycle ⟨[]⟩ "t1" "p1" "P" "Hello" 100 600 exMetrics
    "World" "err" (by simp) (by decide) (by decide) (by decide)
    (by decide)).2.2.1

-- ═════════════════════════════════════════════════════════════════════
-- Claim C7: trace round-trip
-- ═════════════════════════════════════════════════════════════════════

theorem traceOfRow_rowOfTrace (t : TraceRecord) :
    traceOfRow (rowOfTrace t) = t := by
  cases t with
  | mk tid pid pname ts inp out el it ot tc status =>
    cases status <;> rfl

/-- C7: inserting a `TraceRecord` (with any of the three permitted status
values) under a fresh trace id and loading it back through `get_trace`
yields the identical record field by field; in particular `from_str`
after `as_str` is the identity on `TraceStatus`. -/
theorem c7_trace_roundtrip (s0 : TraceStore) (t : TraceRecord)
    (hfresh : ∀ r ∈ s0.rows, r.trace_id ≠ t.trace_id) :
    (∀ st : TraceStatus, TraceStatus.from_str st.as_str = st) ∧
    (∀ s1, s0.insert_trace t = .ok s1 →
      s1.get_trace t.trace_id = some t) := by
  constructor
  · intro st
    cases st <;> rfl
  · intro s1 h
    rw [insert_trace_fresh s0 t hfresh] at h
    injection h with h
    subst h
    unfold TraceStore.get_trace
    have hnone : s0.rows.find? (fun r => r.trace_id == t.trace_id) = none := by
      rw [List.find?_eq_none]
      intro r hr
      simp [hfresh r hr]
    rw [List.find?_append, hnone, Option.none_or]
    have hhit : List.find? (fun r => r.trace_id == t.trace_id)
        [rowOfTrace t] = some (rowOfTrace t) := by
      simp [List.find?_cons, rowOfTrace]
    rw [hhit]
    simp [traceOfRow_rowOfTrace]

/-- Witness for C7 at a concrete record with status `success`. -/
theorem c7_trace_roundtrip_witness :
    TraceStore.get_trace ⟨[rowOfTrace exTrace]⟩ "trace-1" = some exTrace :=
  (c7_trace_roundtrip ⟨[]⟩ exTrace (by simp)).2 ⟨[rowOfTrace exTrace]⟩
    (by decide)

-- ═════════════════════════════════════════════════════════════════════
-- Claim C8: pending_init protocol
-- ═════════════════════════════════════════════════════════════════════

/-- Counterexample to C8 as stated: the reply struct `InitResponse`
declared in dto.rs serializes the fields `models`, `templates`,
`configs` — there is no field named `presets`. -/
theorem c8_counterexample :
    InitResponse.serdeFields ≠ ["models", "presets", "configs"] ∧
    InitResponse.serdeFields = ["models", "templates", "configs"] := by
  refine ⟨by decide, rfl⟩

/-- C8 (amended): in `pending_init` every frame that is not a parsed
payload with `init == true` is ignored without any reply; when the
inbound sequence contains an init frame the server sends exactly one
frame — the `InitResponse`, whose serialized fields are `models`,
`templates` and `configs`, built from the server state — and transitions
to the active state; with no init frame it sends nothing and never
transitions. -/
theorem c8_pending_init (s : ServerStateM) (frames : List Inbound) :
    ((pendingInit s frames).2 = none → (pendingInit s frames).1 = []) ∧
    ((pendingInit s frames).2.isSome ↔ frames.any isInitFrame) ∧
    ((pendingInit s frames).2.isSome →
      (pendingInit s frames).1 = [.initResp (mkInitResponse s)]) ∧
    InitResponse.serdeFields = ["models", "templates", "configs"] := by
  induction frames with
  | nil =>
    exact ⟨fun _ => rfl, by simp [pendingInit], by simp [pendingInit], rfl⟩
  | cons f rest ih =>
    rcases f with p | _
    · rcases p with _ | payload
      · simpa [pendingInit, isInitFrame] using ih
      · by_cases hinit : payload.init
        · simp [pendingInit, hinit, isInitFrame, InitResponse.serdeFields]
        · simpa [pendingInit, hinit, isInitFrame] using ih
    · simpa [pendingInit, isInitFrame] using ih

/-- Witness for C8 at a concrete inbound sequence: one non-text frame,
one parse failure, one non-init payload — all ignored — then an init
frame triggering the single reply. -/
theorem c8_pending_init_witness :
    (pendingInit exServerState
      [.other, .text none, .text (some exNonInitPayload),
       .text (some exInitPayload), .text (some exChatPayload)]).1 =
      [.initResp (mkInitResponse exServerState)] :=
  (c8_pending_init exServerState
    [.other, .text none, .text (some exNonInitPayload),
     .text (some exInitPayload), .text (some exChatPayload)]).2.2.1
    (by decide)

-- ═════════════════════════════════════════════════════════════════════
-- Claim C9: one end frame per message; error funneling
-- ═════════════════════════════════════════════════════════════════════

theorem consumeGo_frames :
    ∀ (chunks : List ChunkItem) (acc : String) (i o : Nat),
      ∀ f ∈ (consumeGo chunks acc i o).1, ∃ s, f = .stream s := by
  intro chunks
  induction chunks with
  | nil => intro acc i o f hf; simp [consumeGo] at hf
  | cons c rest ih =>
    intro acc i o f hf
    cases c with
    | error e =>
      have he : consumeGo (.error e :: rest) acc i o = ([], acc, i, o) := rfl
      rw [he] at hf
      simp at hf
    | ok ch =>
      cases ch with
      | Content s =>
        simp only [consumeGo, List.mem_cons] at hf
        rcases hf with rfl | hf
        · exact ⟨s, rfl⟩
        · exact ih (acc ++ s) i o f hf
      | Usage i' o' =>
        exact ih acc i' o' f (by simpa [consumeGo] using hf)

theorem process_direct_chat_frames
    (outcome : Except AgentError (List ChunkItem)) :
    ∀ f ∈ (process_direct_chat outcome).1, ∃ s, f = .stream s := by
  cases outcome with
  | ok chunks =>
    intro f hf
    exact consumeGo_frames chunks "" 0 0 f hf
  | error e =>
    intro f hf
    simp only [process_direct_chat, List.mem_singleton] at hf
    exact ⟨errorMsg, hf⟩

theorem process_ollama_frames
    (outcome : Except AgentError (List ChunkItem × OllamaMetrics)) :
    ∀ f ∈ (process_ollama outcome).1, ∃ s, f = .stream s := by
  cases outcome with
  | ok p =>
    obtain ⟨chunks, m⟩ := p
    intro f hf
    exact consumeGo_frames chunks "" 0 0 f hf
  | error e =>
    intro f hf
    simp only [process_ollama, List.mem_singleton] at hf
    exact ⟨errorMsg, hf⟩

theorem process_engine_frames (E : PipelineEngine) (chat : Chat) (fuel : Nat)
    (message : String) :
    ∀ f ∈ (process_engine E chat fuel message).1, ∃ s, f = .stream s := by
  unfold process_engine
  rcases execute_stream E chat fuel message with r | response
  · intro f hf
    simp only [List.mem_singleton] at hf
    exact ⟨errorMsg, hf⟩
  · intro f hf
    simp only [List.mem_singleton] at hf
    exact ⟨response, hf⟩

theorem dispatchMessage_frames (state : ServerStateM) (payload : WsPayload)
    (message : String)
    (ollamaOut : Except AgentError (List ChunkItem × OllamaMetrics))
    (directOut : Except AgentError (List ChunkItem)) (chat : Chat)
    (fuel : Nat) (model : ModelConfig) :
    ∀ f ∈ (dispatchMessage state payload message ollamaOut directOut chat
      fuel model).1, ∃ s, f = .stream s := by
  unfold dispatchMessage
  split
  · exact process_ollama_frames ollamaOut
  · split
    · exact process_engine_frames _ chat fuel message
    · split
      · exact process_engine_frames _ chat fuel message
      · exact process_direct_chat_frames directOut

theorem handleMessage_model (state : ServerStateM) (payload : WsPayload)
    (message : String)
    (ollamaOut : Except AgentError (List ChunkItem × OllamaMetrics))
    (directOut : Except AgentError (List ChunkItem)) (chat : Chat)
    (fuel : Nat) (elapsed_ms : Nat) (model : ModelConfig)
    (h : state.get_model (payload.model_id.getD "") = some model) :
    handleMessage state payload message ollamaOut directOut chat fuel
      elapsed_ms =
    handleMessageWithModel state payload message ollamaOut directOut chat
      fuel elapsed_ms model := by
  unfold handleMessage
  rw [h]

/-- Counterexample to C9 as stated: on the direct-chat path a mid-stream
error (an `Err` chunk in the provider stream) makes `consume_stream`
break silently — the session sends only the end frame, with no stream
frame carrying the fixed apologetic sentence, although the execution
errored. -/
theorem c9_counterexample :
    handleMessage exServerState exChatPayload "hi"
        (.error .MaxRetriesExceeded) (.ok [.error (.LlmError "boom")])
        chatEcho 1 7 =
      [.endFrame ⟨0, 0, 7, none, none, none⟩] ∧
    OutFrame.stream errorMsg ∉ handleMessage exServerState exChatPayload "hi"
        (.error .MaxRetriesExceeded) (.ok [.error (.LlmError "boom")])
        chatEcho 1 7 := by
  refine ⟨by decide, by decide⟩

/-- C9 (amended): for every message-carrying frame, whichever of the four
execution paths is taken and however it ends, the session sends exactly
one `end` frame, after all stream frames (every other emitted frame is a
stream frame); an error returned when INITIATING a path — the Ollama
call, the engine, or `chat_stream` — yields exactly one stream frame
carrying the fixed apologetic sentence before the end frame; an error
yielded mid-stream terminates consumption without the apologetic
frame. -/
theorem c9_end_frame_discipline (state : ServerStateM) (payload : WsPayload)
    (message : String)
    (ollamaOut : Except AgentError (List ChunkItem × OllamaMetrics))
    (directOut : Except AgentError (List ChunkItem)) (chat : Chat)
    (fuel : Nat) (elapsed_ms : Nat)
    (hm : state.models ≠ []) :
    (∃ body md, handleMessage state payload message ollamaOut directOut chat
        fuel elapsed_ms = body ++ [.endFrame md] ∧
      ∀ f ∈ body, ∃ s, f = .stream s) ∧
    (∀ e, process_direct_chat (.error e) = ([.stream errorMsg], ⟨0, 0, none⟩)) ∧
    (∀ e, process_ollama (.error e) = ([.stream errorMsg], ⟨0, 0, none⟩)) ∧
    (∀ E r, execute_stream E chat fuel message = .error r →
      process_engine E chat fuel message = ([.stream errorMsg], ⟨0, 0, none⟩)) := by
  refine ⟨?_, fun e => rfl, fun e => rfl, ?_⟩
  · obtain ⟨model, hmodel⟩ :
        ∃ m, state.get_model (payload.model_id.getD "") = some m := by
      unfold ServerStateM.get_model
      cases hf : state.models.find?
          (fun m => m.id == payload.model_id.getD "") with
      | some m => exact ⟨m, by simp [Option.orElse]⟩
      | none =>
        cases hd : state.models with
        | nil => exact absurd hd hm
        | cons m ms => exact ⟨m, by simp [Option.orElse, hd]⟩
    rw [handleMessage_model state payload message ollamaOut directOut chat
      fuel elapsed_ms model hmodel]
    exact ⟨_, _, rfl,
      dispatchMessage_frames state payload message ollamaOut directOut chat
        fuel model⟩
  · intro E r h
    unfold process_engine
    rw [h]

/-- Witness for C9 at a concrete session: direct chat streaming two
content chunks and a usage report, ending with one end frame. -/
theorem c9_end_frame_discipline_witness :
    ∃ body md, handleMessage exServerState exChatPayload "hi"
        (.error .MaxRetriesExceeded)
        (.ok [.ok (.Content "he"), .ok (.Content "llo"), .ok (.Usage 3 5)])
        chatEcho 1 7 = body ++ [.endFrame md] ∧
      ∀ f ∈ body, ∃ s, f = .stream s :=
  (c9_end_frame_discipline exServerState exChatPayload "hi"
    (.error .MaxRetriesExceeded)
    (.ok [.ok (.Content "he"), .ok (.Content "llo"), .ok (.Usage 3 5)])
    chatEcho 1 7 (by decide)).1

-- ═════════════════════════════════════════════════════════════════════
-- Claim C10: unknown status filter
-- ═════════════════════════════════════════════════════════════════════

/-- C10: `TraceStatus::from_str` maps every string other than
`"success"`, `"error"` and `"running"` to `Error`; consequently
GET /api/traces with an unrecognized `status` query value is not
rejected — the handler answers `.ok` and filters exactly as
`status=error`. -/
theorem c10_unknown_status_filters_as_error (store : TraceStore)
    (params : ListTracesQuery) (s : String)
    (h1 : s ≠ "success") (h2 : s ≠ "error") (h3 : s ≠ "running") :
    TraceStatus.from_str s = .Error ∧
    tracesListHandler store { params with status := some s } =
      tracesListHandler store { params with status := some "error" } ∧
    (∃ ts, tracesListHandler store { params with status := some s } =
      .ok ts) := by
  have hfrom : TraceStatus.from_str s = .Error := by
    unfold TraceStatus.from_str
    rw [if_neg (by simpa using h1), if_neg (by simpa using h2),
      if_neg (by simpa using h3)]
  refine ⟨hfrom, ?_, ⟨_, rfl⟩⟩
  unfold tracesListHandler queryOfParams
  simp only [Option.map_some']
  rw [hfrom]
  rfl

/-- Witness for C10 with the literal query value `"bogus"` against a
one-trace store. -/
theorem c10_unknown_status_filters_as_error_witness :
    TraceStatus.from_str "bogus" = .Error ∧
    tracesListHandler ⟨[rowOfTrace exTrace]⟩
        { pipeline_id := none, status := some "bogus", limit := none,
          offset := none } =
      tracesListHandler ⟨[rowOfTrace exTrace]⟩
        { pipeline_id := none, status := some "error", limit := none,
          offset := none } ∧
    (∃ ts, tracesListHandler ⟨[rowOfTrace exTrace]⟩
        { pipeline_id := none, status := some "bogus", limit := none,
          offset := none } = .ok ts) :=
  c10_unknown_status_filters_as_error ⟨[rowOfTrace exTrace]⟩
    ⟨none, none, none, none⟩ "bogus" (by decide) (by decide) (by decide)

end Fissio
